import Mathlib

/-!
# PolyEngine: the entity/component storage of `Poly::World`

A shallow embedding of `Engine/Src/World.hpp`, followed by the resource cache of
`Engine/Src/ResourceManager.hpp` and `RenderingPassBase::DebugDraw` of
`RenderingDevice/OpenGL/Src/RenderingPassBase.cpp`.

* A pointer is an `Option`: `none` is `nullptr`.  An `Entity*` is the slot of
  the entity in `EntitiesAllocator`; a `T*` is the slot of the component in the
  pool of `T`.
* Arrays indexed by a type id (`Components`, `ComponentAllocators`,
  `WorldComponents`) are functions on `Nat`; `std::unordered_map` is a function
  into `Option` (`none`: no entry).
* A method of `World` returns an `Outcome`: the returned value together with
  the world it leaves behind, or the `HEAVY_ASSERTE` (or fatal fault) that
  stopped it together with the world as it was at that moment.
* `Entity.hpp`, `ComponentBase.hpp`, `World.cpp` and the allocators of `Core`
  are not part of the sources at hand; what is needed of them is modelled from
  the specification and marked so.
-/

namespace Poly

/-- Entities per world limit (`World.hpp`, line 24). -/
def MAX_ENTITY_COUNT : Nat := 65536

/-- World components limit (`World.hpp`, line 27). -/
def MAX_WORLD_COMPONENTS_COUNT : Nat := 64

/-- Modelled from the spec: `UniqueID` (declared in `Core`) is "a process-unique
opaque id"; it is a number here. -/
abbrev UniqueID := Nat

/-- Modelled from the spec: the validity test `!!entityId` of `UniqueID`
(declared in `Core`); the all-zero id is the invalid one. -/
def UniqueID.IsValid (id : UniqueID) : Bool := id != 0

/-- A component type `T`, known to the engine through the two ids the "Stable
Type Identity Registry" gave it: one in `ComponentsIDGroup`, one in
`WorldComponentsIDGroup` (two separate counters). -/
structure ComponentType where
  ComponentID : Nat
  WorldComponentID : Nat
deriving DecidableEq, Repr

/-- Modelled from the spec: `ComponentBase` (`ComponentBase.hpp`): the payload the
constructor built from `args...` and "an owner back-reference" (`Entity*`). -/
structure ComponentBase where
  Owner : Option Nat
  Payload : Nat
deriving DecidableEq, Repr

/-- Modelled from the spec: a zeroed pool slot, as `Alloc` hands it out. -/
def ComponentBase.zeroed : ComponentBase := ⟨none, 0⟩

/-! ## The iterable pool (modelled from the spec, sections 4.2 and 4.3) -/

/-- Modelled from the spec: `IterablePoolAllocator<T>` (`Core`): "constructed with
a fixed maximum slot count"; a slot is "a fixed-size storage cell plus a liveness
flag".  `Cells[i] = some c`: slot `i` is live and holds `c`; `none`, or past the
end of the list: slot `i` is dead.  Slots at `Capacity` and beyond do not exist. -/
structure IterablePoolAllocator where
  Capacity : Nat
  Cells : List (Option ComponentBase)
deriving DecidableEq, Repr

/-- The content of cell `i` of a cell list (`none`: dead). -/
def readCell : List (Option ComponentBase) → Nat → Option ComponentBase
  | [], _ => none
  | c :: _, 0 => c
  | _ :: cs, i + 1 => readCell cs i

/-- Stores `v` into cell `i` of a cell list. -/
def writeCell : List (Option ComponentBase) → Nat → Option ComponentBase →
    List (Option ComponentBase)
  | [], 0, v => [v]
  | [], i + 1, v => none :: writeCell [] i v
  | _ :: cs, 0, v => v :: cs
  | c :: cs, i + 1, v => c :: writeCell cs i v

/-- Marks cell `i` of a cell list dead. -/
def clearCell : List (Option ComponentBase) → Nat → List (Option ComponentBase)
  | [], _ => []
  | _ :: cs, 0 => none :: cs
  | c :: cs, i + 1 => c :: clearCell cs i

/-- The index of the first dead cell of a cell list. -/
def firstDead : List (Option ComponentBase) → Nat
  | [] => 0
  | none :: _ => 0
  | some _ :: cs => firstDead cs + 1

/-- Starting at a cell list whose head is slot `i`, the first live slot, or `cap`
(the end) when only dead slots remain. -/
def skipDead (cap : Nat) : List (Option ComponentBase) → Nat → Nat
  | [], _ => cap
  | c :: cs, i => if cap ≤ i then cap else if c.isSome then i else skipDead cap cs (i + 1)

/-- The live slots below `cap` of a cell list whose head is slot `i`, ascending. -/
def liveFrom (cap : Nat) : List (Option ComponentBase) → Nat → List Nat
  | [], _ => []
  | c :: cs, i =>
    if cap ≤ i then [] else if c.isSome then i :: liveFrom cap cs (i + 1) else liveFrom cap cs (i + 1)

namespace IterablePoolAllocator

/-- Modelled from the spec: a pool as its constructor leaves it: no live slot. -/
def create (capacity : Nat) : IterablePoolAllocator := ⟨capacity, []⟩

/-- The instance in slot `i`, `none` when the slot is dead or does not exist. -/
def Get (p : IterablePoolAllocator) (i : Nat) : Option ComponentBase :=
  if i < p.Capacity then readCell p.Cells i else none

/-- The liveness flag of slot `i`. -/
def IsLive (p : IterablePoolAllocator) (i : Nat) : Bool := (p.Get i).isSome

/-- Modelled from the spec: "`Allocate()` returns the address of a free, zeroed
slot ... and marks it live, or fails ... when no free slot remains".  The spec
leaves open which free slot; the lowest one is taken. -/
def Alloc (p : IterablePoolAllocator) : Option (Nat × IterablePoolAllocator) :=
  let i := firstDead p.Cells
  if i < p.Capacity then
    some (i, { p with Cells := writeCell p.Cells i (some ComponentBase.zeroed) })
  else none

/-- A store through a `T*` into the live slot `i` (placement `new`, or an
assignment to a member); a dead slot stays dead. -/
def Store (p : IterablePoolAllocator) (i : Nat) (c : ComponentBase) : IterablePoolAllocator :=
  if p.IsLive i then { p with Cells := writeCell p.Cells i (some c) } else p

/-- The statement `ptr->Owner = ent` on the component in slot `i`. -/
def SetOwner (p : IterablePoolAllocator) (i : Nat) (ent : Option Nat) : IterablePoolAllocator :=
  match p.Get i with
  | none => p
  | some c => p.Store i { c with Owner := ent }

/-- Modelled from the spec: "`Free(address)` marks the slot dead, making it
eligible for reuse by a future `Allocate()`". -/
def Free (p : IterablePoolAllocator) (i : Nat) : IterablePoolAllocator :=
  { p with Cells := clearCell p.Cells i }

/-- Modelled from the spec: the cursor of the pool references a slot index ("two
cursors compare equal iff they reference the same slot index"). -/
structure Iterator where
  idx : Nat
deriving DecidableEq, Repr

/-- Modelled from the spec: `Begin()`: the cursor "on construction ... skips dead
slots". -/
def Begin (p : IterablePoolAllocator) : Iterator := ⟨skipDead p.Capacity p.Cells 0⟩

/-- Modelled from the spec: `End()`: the cursor one past the last slot. -/
def End (p : IterablePoolAllocator) : Iterator := ⟨p.Capacity⟩

/-- Modelled from the spec: `operator++` of the cursor: one step, then "skips dead
slots". -/
def Next (p : IterablePoolAllocator) (it : Iterator) : Iterator :=
  ⟨skipDead p.Capacity (p.Cells.drop (it.idx + 1)) (it.idx + 1)⟩

/-- The live slots of the pool in ascending slot-index order. -/
def LiveSlots (p : IterablePoolAllocator) : List Nat :=
  (List.range p.Capacity).filter p.IsLive

end IterablePoolAllocator

/-! ## Entity -/

/-- Modelled from the spec: `Entity` (`Entity.hpp`): "a bitset ... marking which
component types are currently attached; a fixed-size array of raw component
addresses indexed by component-type id (null where absent)".  The two members are
the ones `World::AddComponent` writes. -/
structure Entity where
  ComponentPosessionFlags : Nat → Bool
  Components : Nat → Option Nat

namespace Entity

/-- Modelled from the spec: an entity as `SpawnEntity` leaves it:
"zero-initialized". -/
def zeroed : Entity := ⟨fun _ => false, fun _ => none⟩

/-- Modelled from the spec: `HasComponent(id)`: "pure bitset test". -/
def HasComponent (e : Entity) (id : Nat) : Bool := e.ComponentPosessionFlags id

/-- The statement `ComponentPosessionFlags.set(id, b)`. -/
def setFlag (e : Entity) (id : Nat) (b : Bool) : Entity :=
  { e with ComponentPosessionFlags := fun k => if k = id then b else e.ComponentPosessionFlags k }

/-- The statement `Components[id] = ptr`. -/
def setComponent (e : Entity) (id : Nat) (ptr : Option Nat) : Entity :=
  { e with Components := fun k => if k = id then ptr else e.Components k }

end Entity

/-- `World::GetComponentID<T>()` (`World.hpp`, lines 73-76). -/
def GetComponentID (T : ComponentType) : Nat := T.ComponentID

/-- `World::GetWorldComponentID<T>()` (`World.hpp`, lines 82-85). -/
def GetWorldComponentID (T : ComponentType) : Nat := T.WorldComponentID

/-- `Entity::GetComponent<T>()` (`World.hpp`, lines 248-256). -/
def Entity.GetComponent (e : Entity) (T : ComponentType) : Option Nat :=
  let ctypeID := GetComponentID T
  if e.HasComponent ctypeID then e.Components ctypeID else none

/-! ## World -/

/-- The state of a `World` (`World.hpp`, lines 236-244): `IDToEntityMap`
(`std::unordered_map<UniqueID, Entity*>`: `none` is "no entry", `some none` an
entry holding `nullptr`), the entity pool, the lazily created component pools and
the world components. -/
structure World where
  IDToEntityMap : UniqueID → Option (Option Nat)
  EntitiesAllocator : Nat → Option Entity
  ComponentAllocators : Nat → Option IterablePoolAllocator
  WorldComponents : Nat → Option ComponentBase

/-- What stops a method: the failed `HEAVY_ASSERTE`, or the fatal fault of the
statement that could not run. -/
inductive Fault where
  | InvalidEntityID
  | EntityDoesNotExist
  | ComponentAlreadyExists
  | ComponentNotAdded
  | ComponentDoesNotExist
  | ComponentNotRemoved
  | InvalidComponentID
  | WorldComponentAlreadyExists
  | WorldComponentDoesNotExist
  | PoolExhausted
  | InvalidPointer
  | OutOfFuel
deriving DecidableEq, Repr

/-- The result of a call on a world: it returned `value` and left the world `w`,
or it was stopped by `f` with the world in state `w`. -/
inductive Outcome (α : Type) where
  | ok (value : α) (w : World)
  | halted (f : Fault) (w : World)

namespace Outcome

/-- The world after the call, whether it returned or was stopped. -/
def world {α : Type} : Outcome α → World
  | ok _ w => w
  | halted _ w => w

/-- The returned value, `none` when the call was stopped. -/
def value? {α : Type} : Outcome α → Option α
  | ok v _ => some v
  | halted _ _ => none

/-- Whether the call was stopped. -/
def failed {α : Type} : Outcome α → Bool
  | ok _ _ => false
  | halted _ _ => true

end Outcome

namespace World

/-- Modelled from the spec: the world as its constructor (`World.cpp`) leaves it:
no entity, no component pool, no world component. -/
def empty : World := ⟨fun _ => none, fun _ => none, fun _ => none, fun _ => none⟩

/-- `IDToEntityMap.find(entityId)`: a lookup, the map is not touched. -/
def find (w : World) (entityId : UniqueID) : Option (Option Nat) := w.IDToEntityMap entityId

/-- `IDToEntityMap[entityId]`: `std::unordered_map::operator[]` inserts a
value-initialised (`nullptr`) entry when the key has none, and returns the mapped
value. -/
def index (w : World) (entityId : UniqueID) : Option Nat × World :=
  match w.IDToEntityMap entityId with
  | some ent => (ent, w)
  | none =>
    (none, { w with IDToEntityMap := fun k => if k = entityId then some none else w.IDToEntityMap k })

/-- The entity an `Entity*` points to: `none` for `nullptr` and for a slot that
holds no entity. -/
def deref (w : World) (ent : Option Nat) : Option Entity :=
  match ent with
  | none => none
  | some a => w.EntitiesAllocator a

/-- A store through an `Entity*` into the entity in slot `a`. -/
def storeEntity (w : World) (a : Nat) (e : Entity) : World :=
  { w with EntitiesAllocator := fun k => if k = a then some e else w.EntitiesAllocator k }

/-- A change made through the pointer `ComponentAllocators[ctypeID]`. -/
def storeAllocator (w : World) (ctypeID : Nat) (p : IterablePoolAllocator) : World :=
  { w with ComponentAllocators := fun k => if k = ctypeID then some p else w.ComponentAllocators k }

/-- Modelled from the spec: `HasWorldComponent(ID)` (`World.cpp`): "Checks whether
world has component of given ID", a "pure lookup". -/
def HasWorldComponent (w : World) (ID : Nat) : Bool := (w.WorldComponents ID).isSome

/-- `World::GetComponent<T>(entityId)` (`World.hpp`, lines 44-51). -/
def GetComponent (w : World) (T : ComponentType) (entityId : UniqueID) : Outcome (Option Nat) :=
  if !entityId.IsValid then .halted .InvalidEntityID w
  else
    match w.find entityId with
    | none => .halted .EntityDoesNotExist w
    | some ent =>
      match w.deref ent with
      | none => .halted .InvalidPointer w
      | some e => .ok (e.GetComponent T) w

/-- `World::GetWorldComponent<T>()` (`World.hpp`, lines 60-67). -/
def GetWorldComponent (w : World) (T : ComponentType) : Outcome (Option ComponentBase) :=
  let ctypeID := GetWorldComponentID T
  if w.HasWorldComponent ctypeID then .ok (w.WorldComponents ctypeID) w
  else .ok none w

/-- `World::GetComponentAllocator<T>()` (`World.hpp`, lines 206-214); the returned
pointer is `ComponentAllocators[ctypeID]`, the value is the pool it points to.
`MAX_COMPONENTS_COUNT` is declared outside the sources at hand. -/
def GetComponentAllocator (MAX_COMPONENTS_COUNT : Nat) (w : World) (T : ComponentType) :
    Outcome IterablePoolAllocator :=
  let ctypeID := GetComponentID T
  if ¬ ctypeID < MAX_COMPONENTS_COUNT then .halted .InvalidComponentID w
  else
    match w.ComponentAllocators ctypeID with
    | none =>
      let p := IterablePoolAllocator.create MAX_ENTITY_COUNT
      .ok p (w.storeAllocator ctypeID p)
    | some p => .ok p w

/-- `World::AddComponent<T>(entityId, args...)` (`World.hpp`, lines 174-187). -/
def AddComponent (MAX_COMPONENTS_COUNT : Nat) (w : World) (T : ComponentType)
    (entityId : UniqueID) (args : Nat) : Outcome Unit :=
  let ctypeID := GetComponentID T
  match GetComponentAllocator MAX_COMPONENTS_COUNT w T with
  | .halted f w1 => .halted f w1
  | .ok pool w1 =>
    match pool.Alloc with
    | none => .halted .PoolExhausted w1
    | some (ptr, pool1) =>
      let pool2 := pool1.Store ptr ⟨none, args⟩
      let w2 := w1.storeAllocator ctypeID pool2
      let (ent, w3) := w2.index entityId
      match ent with
      | none => .halted .InvalidEntityID w3
      | some a =>
        match w3.EntitiesAllocator a with
        | none => .halted .InvalidPointer w3
        | some e =>
          if e.HasComponent ctypeID then .halted .ComponentAlreadyExists w3
          else
            let e1 := e.setFlag ctypeID true
            let e2 := e1.setComponent ctypeID (some ptr)
            let w4 := w3.storeEntity a e2
            let w5 := w4.storeAllocator ctypeID (pool2.SetOwner ptr (some a))
            if e2.HasComponent ctypeID then .ok () w5 else .halted .ComponentNotAdded w5

/-- `World::RemoveComponent<T>(entityId)` (`World.hpp`, lines 190-203). -/
def RemoveComponent (MAX_COMPONENTS_COUNT : Nat) (w : World) (T : ComponentType)
    (entityId : UniqueID) : Outcome Unit :=
  let ctypeID := GetComponentID T
  let (ent, w1) := w.index entityId
  match ent with
  | none => .halted .InvalidEntityID w1
  | some a =>
    match w1.EntitiesAllocator a with
    | none => .halted .InvalidPointer w1
    | some e =>
      if !e.HasComponent ctypeID then .halted .ComponentDoesNotExist w1
      else
        let e1 := e.setFlag ctypeID false
        let component := e1.Components ctypeID
        let e2 := e1.setComponent ctypeID none
        let w2 := w1.storeEntity a e2
        match component with
        | none => .halted .InvalidPointer w2
        | some slot =>
          match GetComponentAllocator MAX_COMPONENTS_COUNT w2 T with
          | .halted f w3 => .halted f w3
          | .ok pool w3 =>
            let w4 := w3.storeAllocator ctypeID (pool.Free slot)
            if e2.HasComponent ctypeID then .halted .ComponentNotRemoved w4 else .ok () w4

/-- `World::AddWorldComponent<T>(args...)` (`World.hpp`, lines 217-223). -/
def AddWorldComponent (w : World) (T : ComponentType) (args : Nat) : Outcome Unit :=
  let ctypeID := GetWorldComponentID T
  if w.HasWorldComponent ctypeID then .halted .WorldComponentAlreadyExists w
  else
    .ok () { w with WorldComponents := fun k => if k = ctypeID then some ⟨none, args⟩ else w.WorldComponents k }

/-- `World::RemoveWorldComponent<T>()` (`World.hpp`, lines 226-234); the id is read
with `GetComponentID<T>()`, as in the source. -/
def RemoveWorldComponent (w : World) (T : ComponentType) : Outcome Unit :=
  let ctypeID := GetComponentID T
  if !w.HasWorldComponent ctypeID then .halted .WorldComponentDoesNotExist w
  else
    .ok () { w with WorldComponents := fun k => if k = ctypeID then none else w.WorldComponents k }

/-- Modelled from the spec: `SpawnEntity()` (`World.cpp`): "allocates an entity slot
from the fixed entity pool, registers the new id in an id→entity lookup, returns
the id"; the entity is "zero-initialized".  The generated id is the argument `id`,
the slot the argument `slot`; the call is fatal when the slot is taken or out of
the pool. -/
def SpawnEntity (w : World) (id : UniqueID) (slot : Nat) : Outcome UniqueID :=
  if ¬ slot < MAX_ENTITY_COUNT ∨ (w.EntitiesAllocator slot).isSome then .halted .PoolExhausted w
  else
    let w1 := w.storeEntity slot Entity.zeroed
    .ok id { w1 with IDToEntityMap := fun k => if k = id then some (some slot) else w1.IDToEntityMap k }

end World

/-! ## Iteration over components -/

/-- Modelled from the spec: `ComponentBase::GetSibling<T>()` (`ComponentBase.hpp`):
"same semantics" as `Entity::GetComponent<T>()`, fetching the "component type from
the entity owning the primary one".  `none`: the owner pointer cannot be
followed. -/
def ComponentBase.GetSibling (c : ComponentBase) (w : World) (T : ComponentType) :
    Option (Option Nat) :=
  match w.deref c.Owner with
  | none => none
  | some e => some (e.GetComponent T)

/-- The siblings `primary->GetSibling<SecondaryComponents>()...` of one component,
in the order of the type list. -/
def siblings (c : ComponentBase) (w : World) : List ComponentType → Option (List (Option Nat))
  | [] => some []
  | T :: Ts =>
    match c.GetSibling w T, siblings c w Ts with
    | some s, some rest => some (s :: rest)
    | _, _ => none

/-- The tuple `operator*` returns: the `PrimaryComponent*` and the
`SecondaryComponents*...`. -/
abbrev ComponentTuple := Option Nat × List (Option Nat)

/-- `World::ComponentIterator<PrimaryComponent, SecondaryComponents...>`
(`World.hpp`, lines 107-135): the cursor `primary_iter` of the primary pool. -/
structure ComponentIterator where
  primary_iter : IterablePoolAllocator.Iterator
deriving DecidableEq, Repr

namespace ComponentIterator

/-- `operator==` (`World.hpp`, line 112). -/
def eq (lhs rhs : ComponentIterator) : Bool := lhs.primary_iter = rhs.primary_iter

/-- `operator*` (`World.hpp`, lines 115-119) on the pool `pool` of the primary
type; `none`: the cursor is on no live slot ("dereferencing an end cursor is
undefined/fatal"), or an owner pointer cannot be followed. -/
def star (w : World) (pool : IterablePoolAllocator) (Secondary : List ComponentType)
    (it : ComponentIterator) : Option ComponentTuple :=
  match pool.Get it.primary_iter.idx with
  | none => none
  | some c =>
    let primary : Option Nat := some it.primary_iter.idx
    match siblings c w Secondary with
    | none => none
    | some rest => some (primary, rest)

/-- `operator++` (`World.hpp`, line 125). -/
def incr (pool : IterablePoolAllocator) (it : ComponentIterator) : ComponentIterator :=
  ⟨pool.Next it.primary_iter⟩

end ComponentIterator

namespace IteratorProxy

/-- `IteratorProxy::Begin()` (`World.hpp`, lines 142-145). -/
def Begin (MAX_COMPONENTS_COUNT : Nat) (W : World) (Primary : ComponentType) :
    Outcome ComponentIterator :=
  match W.GetComponentAllocator MAX_COMPONENTS_COUNT Primary with
  | .halted f w => .halted f w
  | .ok pool w => .ok ⟨pool.Begin⟩ w

/-- `IteratorProxy::End()` (`World.hpp`, lines 146-149). -/
def End (MAX_COMPONENTS_COUNT : Nat) (W : World) (Primary : ComponentType) :
    Outcome ComponentIterator :=
  match W.GetComponentAllocator MAX_COMPONENTS_COUNT Primary with
  | .halted f w => .halted f w
  | .ok pool w => .ok ⟨pool.End⟩ w

end IteratorProxy

/-- The body of a pass `for (; it != end; ++it) yield *it` over the pool `pool`,
with at most `fuel` steps: the tuples yielded, or the fault that stopped it. -/
def passFrom (w : World) (pool : IterablePoolAllocator) (Secondary : List ComponentType)
    (last : ComponentIterator) : Nat → ComponentIterator → Except Fault (List ComponentTuple)
  | fuel, it =>
    if it.eq last then .ok []
    else
      match fuel with
      | 0 => .error .OutOfFuel
      | fuel + 1 =>
        match it.star w pool Secondary with
        | none => .error .InvalidPointer
        | some t =>
          match passFrom w pool Secondary last fuel (it.incr pool) with
          | .ok ts => .ok (t :: ts)
          | .error f => .error f

/-- A pass over `IterateComponents<Primary, Secondary...>()`: the cursor starts at
`Begin()` and is stepped with `operator++` until it equals `End()`; the tuples
`*it` are collected.  The cursor moves forward over at most `Capacity` slots, which
is the fuel. -/
def World.IterateComponents (MAX_COMPONENTS_COUNT : Nat) (w : World) (Primary : ComponentType)
    (Secondary : List ComponentType) : Outcome (List ComponentTuple) :=
  match IteratorProxy.Begin MAX_COMPONENTS_COUNT w Primary with
  | .halted f w1 => .halted f w1
  | .ok first w1 =>
    match IteratorProxy.End MAX_COMPONENTS_COUNT w1 Primary with
    | .halted f w2 => .halted f w2
    | .ok last w2 =>
      match w2.ComponentAllocators (GetComponentID Primary) with
      | none => .halted .InvalidPointer w2
      | some pool =>
        match passFrom w2 pool Secondary last pool.Capacity first with
        | .ok ts => .ok ts w2
        | .error f => .halted f w2

/-- The live instances of type `T` in the world: the live slots of the pool of `T`,
none when the pool was not created yet. -/
def World.LiveInstances (w : World) (T : ComponentType) : List Nat :=
  match w.ComponentAllocators (GetComponentID T) with
  | none => []
  | some pool => pool.LiveSlots

/-- The possession invariant of an entity (spec, section 3): "`bit[i]` set ⇔
`addresses[i] != null`". -/
def Entity.PossessionInvariant (e : Entity) : Prop :=
  ∀ i : Nat, e.ComponentPosessionFlags i = true ↔ e.Components i ≠ none

/-- Whether slot `i` of the pool of `T` is live in the world (no pool: no live
slot). -/
def World.IsLiveSlot (w : World) (T : ComponentType) (i : Nat) : Bool :=
  match w.ComponentAllocators (GetComponentID T) with
  | none => false
  | some pool => pool.IsLive i

/-- Every entity of the world satisfies the possession invariant. -/
def World.EntitiesInvariant (w : World) : Prop :=
  ∀ (a : Nat) (e : Entity), w.EntitiesAllocator a = some e → e.PossessionInvariant

/-- Distinct registered ids name distinct entities, and every registered id names
an entity of the entity pool. -/
def World.IdsConsistent (w : World) : Prop :=
  (∀ (id1 id2 : UniqueID) (a : Nat), w.IDToEntityMap id1 = some (some a) →
      w.IDToEntityMap id2 = some (some a) → id1 = id2) ∧
    (∀ (id : UniqueID) (a : Nat), w.IDToEntityMap id = some (some a) →
      (w.EntitiesAllocator a).isSome = true)

/-- The instance in slot `i` of the pool of `T` (no pool: no instance). -/
def World.PoolGet (w : World) (T : ComponentType) (i : Nat) : Option ComponentBase :=
  match w.ComponentAllocators (GetComponentID T) with
  | none => none
  | some pool => pool.Get i

/-- The entities (by slot) to which a component of type `T` is attached: the
entities whose possession bit for `T` is set. -/
def World.Attached (w : World) (T : ComponentType) : Set Nat :=
  { a | ∃ e, w.EntitiesAllocator a = some e ∧ e.HasComponent (GetComponentID T) = true }

/-- The pool of `T` and the entities agree (spec, section 3: "a component
instance's slot in its type's pool is valid exactly while the owning entity's
corresponding bit is set"): the component attached to an entity is a live instance
owned by that entity, and every live instance is the one attached to its owner. -/
def World.PoolConsistent (w : World) (T : ComponentType) : Prop :=
  (∀ (a : Nat) (e : Entity), w.EntitiesAllocator a = some e →
      e.HasComponent (GetComponentID T) = true →
      ∃ slot c, e.Components (GetComponentID T) = some slot ∧ w.PoolGet T slot = some c ∧
        c.Owner = some a) ∧
    (∀ (slot : Nat) (c : ComponentBase), w.PoolGet T slot = some c →
      ∃ a e, c.Owner = some a ∧ w.EntitiesAllocator a = some e ∧
        e.HasComponent (GetComponentID T) = true ∧
        e.Components (GetComponentID T) = some slot)

/-! ## Scenarios -/

namespace Scenario

/-- A component type with id 0 in both id groups. -/
def Position : ComponentType := ⟨0, 0⟩

/-- A component type with id 1 in both id groups. -/
def Velocity : ComponentType := ⟨1, 1⟩

/-- A type whose id in the component group (1) differs from its id in the
world-component group (0): the first world-component type of a process in which
one ordinary component type (`Position`, id 0) was registered before
`GetComponentID<Sky>()` is first called. -/
def Sky : ComponentType := ⟨1, 0⟩

/-- The second world-component type of that process (id 1 in the world-component
group, the next free id 2 in the component group). -/
def Fog : ComponentType := ⟨2, 1⟩

/-- A world with one entity, id 101. -/
def oneEntity : World := (World.empty.SpawnEntity 101 0).world

/-- The entity 101 with a `Position`. -/
def onePosition : World := (oneEntity.AddComponent 64 Position 101 10).world

/-- Two entities, ids 101 and 102. -/
def twoEntities : World := (oneEntity.SpawnEntity 102 1).world

/-- Three entities, ids 101, 102, 103. -/
def threeEntities : World := (twoEntities.SpawnEntity 103 2).world

/-- A `Position` on the first of the three entities. -/
def firstPosition : World := (threeEntities.AddComponent 64 Position 101 10).world

/-- A `Position` on the first two of the three entities. -/
def twoPositions : World := (firstPosition.AddComponent 64 Position 102 20).world

/-- A `Position` on each of the three entities. -/
def allPositions : World := (twoPositions.AddComponent 64 Position 103 30).world

/-- `Position` on all three entities, `Velocity` on the second only. -/
def threePositions : World := (allPositions.AddComponent 64 Velocity 102 5).world

/-- A world holding the world component `Fog` only. -/
def foggy : World := (World.empty.AddWorldComponent Fog 3).world

end Scenario

/-! ## The resource cache (`Engine/Src/ResourceManager.hpp`) -/

/-- Modelled from the spec: `ResourceBase` (`ResourceBase.hpp`): the path a resource
was loaded from and its reference count ("reference-counts ... a file-backed
resource"). -/
structure ResourceBase where
  Path : String
  RefCount : Nat
deriving DecidableEq, Repr

namespace ResourceBase

/-- Modelled from the spec: a resource as its constructor leaves it: no path set,
no reference. -/
def constructed : ResourceBase := ⟨"", 0⟩

/-- Modelled from the spec: `AddRef()`: one more reference. -/
def AddRef (r : ResourceBase) : ResourceBase := { r with RefCount := r.RefCount + 1 }

/-- Modelled from the spec: `RemoveRef()`: "decrements refcount", and tells whether
"it reaches zero"; the resource after the call and the returned flag. -/
def RemoveRef (r : ResourceBase) : ResourceBase × Bool :=
  ({ r with RefCount := r.RefCount - 1 }, r.RefCount - 1 == 0)

/-- `GetPath()`. -/
def GetPath (r : ResourceBase) : String := r.Path

end ResourceBase

/-- What `new T(absolutePath)` does in one call of `Load`
(`ResourceManager.hpp`, lines 75-84): it builds the resource at a new address, or
throws `ResourceLoadFailedException`, or throws another `std::exception`. -/
inductive Construction where
  | built (resource : Nat)
  | ResourceLoadFailedException
  | exception
deriving DecidableEq, Repr

/-- The state behind `ResourceManager<T>`: the map `Impl::GetResources<T>()`
(`OrderedMap<String, std::unique_ptr<T>>`: path to owned pointer, `none`: the entry
is vacant) and the objects of type `T` that are alive, by address. -/
structure ResourceManager where
  Resources : String → Option Nat
  Objects : Nat → Option ResourceBase

/-- What stops `Load` or `Release`: a pointer that cannot be followed. -/
inductive ResourceFault where
  | InvalidPointer
deriving DecidableEq, Repr

/-- The result of a call on the resource cache: it returned `value` and left the
cache `m`, or it was stopped by `f` with the cache in state `m`. -/
inductive ResourceOutcome (α : Type) where
  | returned (value : α) (m : ResourceManager)
  | stopped (f : ResourceFault) (m : ResourceManager)

namespace ResourceOutcome

/-- The cache after the call, whether it returned or was stopped. -/
def cache {α : Type} : ResourceOutcome α → ResourceManager
  | returned _ m => m
  | stopped _ m => m

/-- The returned value, `none` when the call was stopped. -/
def value? {α : Type} : ResourceOutcome α → Option α
  | returned v _ => some v
  | stopped _ _ => none

end ResourceOutcome

namespace ResourceManager

/-- A cache with no entry and no object. -/
def empty : ResourceManager := ⟨fun _ => none, fun _ => none⟩

/-- A store through a `T*` into the object at `resource`. -/
def storeObject (m : ResourceManager) (resource : Nat) (r : ResourceBase) : ResourceManager :=
  { m with Objects := fun k => if k = resource then some r else m.Objects k }

/-- Modelled from the spec: `OrderedMap::Insert(path, std::unique_ptr<T>(resource))`:
the entry of `path` now owns `resource`. -/
def Insert (m : ResourceManager) (path : String) (resource : Nat) : ResourceManager :=
  { m with Resources := fun k => if k = path then some resource else m.Resources k }

/-- Modelled from the spec: `OrderedMap::Remove(path)`: the entry of `path` is
erased and the owned object is destroyed with its `std::unique_ptr` ("evicts and
frees"). -/
def Remove (m : ResourceManager) (path : String) : ResourceManager :=
  match m.Resources path with
  | none => m
  | some owned =>
    { Resources := fun k => if k = path then none else m.Resources k
      Objects := fun k => if k = owned then none else m.Objects k }

/-- `ResourceManager<T>::Load(path, source)` (`ResourceManager.hpp`, lines 59-96).
`source` enters only through `absolutePath`, the argument of the constructor, whose
behaviour in this call is `construct`.  On an occupied entry `it.OrInsert(path)`
gives the stored pointer (the source notes `OccupiredGet()` next to it).  The macro
`HEAVY_ASSERTE` is defined outside `ResourceManager.hpp`, and the file only builds
where the macro drops its first argument (line 104 is `HEAVY_ASSERTE(it.., ...)`):
`HEAVY_ASSERTE(false, ...)` in the second `catch` does nothing and the
`return nullptr` after it runs. -/
def Load (m : ResourceManager) (path : String) (construct : Construction) :
    ResourceOutcome (Option Nat) :=
  match m.Resources path with
  | some resource =>
    match m.Objects resource with
    | none => .stopped .InvalidPointer m
    | some r => .returned (some resource) (m.storeObject resource r.AddRef)
  | none =>
    match construct with
    | .exception => .returned none m
    | .ResourceLoadFailedException => .returned none m
    | .built resource =>
      let r := ResourceBase.constructed
      let m1 := (m.storeObject resource r).Insert path resource
      let r1 := { r with Path := path }
      let r2 := r1.AddRef
      .returned (some resource) (m1.storeObject resource r2)

/-- `ResourceManager<T>::Release(resource)` (`ResourceManager.hpp`, lines 99-108).
The `HEAVY_ASSERTE(it.., ...)` of line 104 is dropped by the macro, as in `Load`. -/
def Release (m : ResourceManager) (resource : Nat) : ResourceOutcome Unit :=
  match m.Objects resource with
  | none => .stopped .InvalidPointer m
  | some r =>
    let (r1, last) := r.RemoveRef
    let m1 := m.storeObject resource r1
    if last then .returned () (m1.Remove r1.GetPath)
    else .returned () m1

/-- The calls `Load(path)` one after the other, `cs` telling what the constructor
would do in each of them: the handles returned and the cache left, `none` when one
of the calls was stopped. -/
def LoadEach (path : String) : List Construction → ResourceManager →
    Option (List (Option Nat) × ResourceManager)
  | [], m => some ([], m)
  | c :: cs, m =>
    match m.Load path c with
    | .stopped _ _ => none
    | .returned h m1 =>
      match LoadEach path cs m1 with
      | none => none
      | some (hs, m2) => some (h :: hs, m2)

/-- The call `Release(resource)` made `n` times: the cache left, `none` when one of
the calls was stopped. -/
def ReleaseTimes (resource : Nat) : Nat → ResourceManager → Option ResourceManager
  | 0, m => some m
  | n + 1, m =>
    match m.Release resource with
    | .stopped _ _ => none
    | .returned _ m1 => ReleaseTimes resource n m1

/-- The resource at address `resource` is in the cache under `path`, with
reference count `count`. -/
def Cached (m : ResourceManager) (path : String) (resource count : Nat) : Prop :=
  m.Resources path = some resource ∧ m.Objects resource = some ⟨path, count⟩

end ResourceManager

/-! ## The debug view of a rendering pass (`RenderingPassBase.cpp`) -/

/-- `eRenderingTargetType` (`RenderingPassBase.hpp`, lines 77-83). -/
inductive eRenderingTargetType where
  | TEXTURE_2D
  | TEXTURE_2D_INPUT
  | DEPTH
  | _COUNT
deriving DecidableEq, Repr

/-- The range of `uint32_t`. -/
def UINT32_RANGE : Nat := 2 ^ 32

/-- `ScreenSize` (declared outside `RenderingPassBase.cpp`): the two members
`DebugDraw` reads, as they enter its `uint32_t` arithmetic. -/
structure ScreenSize where
  Width : Nat
  Height : Nat
deriving DecidableEq, Repr

/-- One `glReadBuffer(GL_COLOR_ATTACHMENT0 + attachment)` followed by
`glBlitFramebuffer(srcX0, srcY0, srcX1, srcY1, dstX0, dstY0, dstX1, dstY1, ...)`;
the `uint32_t` values of the arguments. -/
structure Blit where
  attachment : Nat
  srcX0 : Nat
  srcY0 : Nat
  srcX1 : Nat
  srcY1 : Nat
  dstX0 : Nat
  dstY0 : Nat
  dstX1 : Nat
  dstY1 : Nat
deriving DecidableEq, Repr

/-- The first loop of `DebugDraw` (`RenderingPassBase.cpp`, lines 46-52):
`++attachmentsCount` for every `TEXTURE_2D` output, in `uint32_t`. -/
def countAttachments : List eRenderingTargetType → Nat → Nat
  | [], attachmentsCount => attachmentsCount
  | t :: ts, attachmentsCount =>
    if t = .TEXTURE_2D then countAttachments ts ((attachmentsCount + 1) % UINT32_RANGE)
    else countAttachments ts attachmentsCount

/-- The second loop of `DebugDraw` (`RenderingPassBase.cpp`, lines 64-77): one blit
per `TEXTURE_2D` output, `count` running in `uint32_t`. -/
def blitAttachments (screenSize : ScreenSize) (drawDivisor divH : Nat) :
    List eRenderingTargetType → Nat → List Blit
  | [], _ => []
  | t :: ts, count =>
    if t = .TEXTURE_2D then
      { attachment := count
        srcX0 := 0, srcY0 := 0, srcX1 := screenSize.Width, srcY1 := screenSize.Height
        dstX0 := 0
        dstY0 := count * divH % UINT32_RANGE
        dstX1 := screenSize.Width / drawDivisor
        dstY1 := (count + 1) % UINT32_RANGE * divH % UINT32_RANGE } ::
        blitAttachments screenSize drawDivisor divH ts ((count + 1) % UINT32_RANGE)
    else blitAttachments screenSize drawDivisor divH ts count

/-- `RenderingPassBase::DebugDraw()` (`RenderingPassBase.cpp`, lines 42-81): the
blits it issues, for the frame buffer `FBO`, the types of the outputs in the order
of `GetOutputs()` and the screen size the device reports. -/
def DebugDraw (FBO : Nat) (outputs : List eRenderingTargetType) (screenSize : ScreenSize) :
    List Blit :=
  if FBO > 0 then
    let attachmentsCount := countAttachments outputs 0
    if attachmentsCount = 0 then []
    else
      let drawDivisor := max 3 attachmentsCount
      let divH := screenSize.Height / drawDivisor
      blitAttachments screenSize drawDivisor divH outputs 0
  else []

namespace Scenario

/-- The path of a texture. -/
def skyTexture : String := "Textures/sky.png"

/-- The cache after `Load(skyTexture)` built the resource at address 7. -/
def oneLoad : ResourceManager :=
  (ResourceManager.empty.Load skyTexture (.built 7)).cache

/-- The types of the outputs of a pass with two colour attachments and a depth
buffer. -/
def gbuffer : List eRenderingTargetType := [.TEXTURE_2D, .DEPTH, .TEXTURE_2D]

end Scenario

/-! ## Cell lists and pools -/

theorem readCell_nil (j : Nat) : readCell [] j = none := by
  cases j <;> rfl

theorem readCell_writeCell (cs : List (Option ComponentBase)) (i j : Nat)
    (v : Option ComponentBase) :
    readCell (writeCell cs i v) j = if j = i then v else readCell cs j := by
  induction cs generalizing i j with
  | nil =>
    induction i generalizing j with
    | zero => cases j <;> simp [writeCell, readCell, readCell_nil]
    | succ i ih =>
      cases j with
      | zero => simp [writeCell, readCell]
      | succ j => simp [writeCell, readCell, ih j, readCell_nil]
  | cons c cs ih =>
    cases i with
    | zero => cases j <;> simp [writeCell, readCell]
    | succ i =>
      cases j with
      | zero => simp [writeCell, readCell]
      | succ j => simp [writeCell, readCell, ih i j]

theorem readCell_clearCell (cs : List (Option ComponentBase)) (i j : Nat) :
    readCell (clearCell cs i) j = if j = i then none else readCell cs j := by
  induction cs generalizing i j with
  | nil => simp [clearCell, readCell_nil]
  | cons c cs ih =>
    cases i with
    | zero => cases j <;> simp [clearCell, readCell]
    | succ i =>
      cases j with
      | zero => simp [clearCell, readCell]
      | succ j => simp [clearCell, readCell, ih i j]

theorem readCell_firstDead (cs : List (Option ComponentBase)) :
    readCell cs (firstDead cs) = none := by
  induction cs with
  | nil => rfl
  | cons c cs ih =>
    cases c with
    | none => rfl
    | some c => simpa [firstDead, readCell] using ih

namespace IterablePoolAllocator

theorem Alloc_spec (p p1 : IterablePoolAllocator) (i : Nat) (h : p.Alloc = some (i, p1)) :
    i < p.Capacity ∧ p.Get i = none ∧ p1.Capacity = p.Capacity ∧
      ∀ j, p1.Get j = if j = i then some ComponentBase.zeroed else p.Get j := by
  unfold Alloc at h
  simp only at h
  split at h
  · rename_i hlt
    simp only [Option.some.injEq, Prod.mk.injEq] at h
    obtain ⟨hi, hp⟩ := h
    subst hi
    subst hp
    refine ⟨hlt, ?_, rfl, ?_⟩
    · simp [Get, hlt, readCell_firstDead]
    · intro j
      by_cases hj : j = firstDead p.Cells
      · simp [Get, hj, hlt, readCell_writeCell]
      · simp [Get, hj, readCell_writeCell]
  · simp at h

theorem Get_Store (p : IterablePoolAllocator) (i j : Nat) (c : ComponentBase) :
    (p.Store i c).Get j = if j = i ∧ p.IsLive i = true then some c else p.Get j := by
  unfold Store
  by_cases hl : p.IsLive i = true
  · simp only [hl, if_true, and_true]
    by_cases hj : j = i
    · have hlt : i < p.Capacity := by
        by_contra hc
        simp [IsLive, Get, hc] at hl
      simp [Get, hj, hlt, readCell_writeCell]
    · simp [Get, hj, readCell_writeCell]
  · simp [hl]

theorem Capacity_Store (p : IterablePoolAllocator) (i : Nat) (c : ComponentBase) :
    (p.Store i c).Capacity = p.Capacity := by
  unfold Store
  split <;> rfl

theorem Get_Free (p : IterablePoolAllocator) (i j : Nat) :
    (p.Free i).Get j = if j = i then none else p.Get j := by
  by_cases hj : j = i
  · simp [Free, Get, hj, readCell_clearCell]
  · simp [Free, Get, hj, readCell_clearCell]

theorem IsLive_Free_self (p : IterablePoolAllocator) (i : Nat) : (p.Free i).IsLive i = false := by
  simp [IsLive, Get_Free]

end IterablePoolAllocator

/-! ## Lookups -/

/-- C8: `Entity::GetComponent<T>()` returns the address stored at index
`id_of<T>()` when `HasComponent(id_of<T>())` is true and null otherwise; it is a
total function of the entity's state, so it never fails. -/
theorem Entity_GetComponent_stored_or_null (e : Entity) (T : ComponentType) :
    (e.HasComponent (GetComponentID T) = true →
        e.GetComponent T = e.Components (GetComponentID T)) ∧
      (e.HasComponent (GetComponentID T) = false → e.GetComponent T = none) := by
  constructor
  · intro h
    simp [Entity.GetComponent, h]
  · intro h
    simp [Entity.GetComponent, h]

/-- C8, at an entity holding the address 5 under a set bit 0 and the address 9
under a cleared bit 1: the first is returned, the second is not. -/
theorem Entity_GetComponent_stored_or_null_witness :
    (Entity.GetComponent ⟨fun i => decide (i = 0), fun i => if i = 0 then some 5 else some 9⟩
        Scenario.Position = some 5) ∧
      (Entity.GetComponent ⟨fun i => decide (i = 0), fun i => if i = 0 then some 5 else some 9⟩
        Scenario.Velocity = none) :=
  ⟨(Entity_GetComponent_stored_or_null _ Scenario.Position).1 (by decide),
   (Entity_GetComponent_stored_or_null _ Scenario.Velocity).2 (by decide)⟩

/-- C10: `World::GetComponent<T>(id)` and `World::GetWorldComponent<T>()` leave the
world (the id-to-entity map, the entities with their possession bits and address
tables, the pools and the world-component array) exactly as it was, whether they
return or are stopped by an assertion. -/
theorem lookups_leave_world_unchanged (w : World) (T : ComponentType) (entityId : UniqueID) :
    (w.GetComponent T entityId).world = w ∧ (w.GetWorldComponent T).world = w := by
  constructor
  · unfold World.GetComponent
    split
    · rfl
    · split
      · rfl
      · split <;> rfl
  · unfold World.GetWorldComponent
    simp only
    split <;> rfl

/-! ## Attaching and detaching components -/

theorem Entity.Components_setFlag (e : Entity) (i : Nat) (b : Bool) :
    (e.setFlag i b).Components = e.Components := rfl

namespace World

theorem GetComponentAllocator_ok (MAX : Nat) (w w1 : World) (T : ComponentType)
    (pool : IterablePoolAllocator) (h : w.GetComponentAllocator MAX T = .ok pool w1) :
    GetComponentID T < MAX ∧ w1.IDToEntityMap = w.IDToEntityMap ∧
      w1.EntitiesAllocator = w.EntitiesAllocator ∧ w1.WorldComponents = w.WorldComponents ∧
      w1.ComponentAllocators (GetComponentID T) = some pool ∧
      (∀ k, k ≠ GetComponentID T → w1.ComponentAllocators k = w.ComponentAllocators k) ∧
      (w.ComponentAllocators (GetComponentID T) = some pool ∨
        (w.ComponentAllocators (GetComponentID T) = none ∧
          pool = IterablePoolAllocator.create MAX_ENTITY_COUNT)) := by
  unfold GetComponentAllocator at h
  simp only at h
  split at h
  · cases h
  · rename_i hlt
    have hlt2 : GetComponentID T < MAX := by simpa using hlt
    split at h
    · rename_i hnone
      cases h
      refine ⟨hlt2, rfl, rfl, rfl, by simp [storeAllocator], ?_, Or.inr ⟨hnone, rfl⟩⟩
      intro k hk
      simp [storeAllocator, hk]
    · rename_i p hsome
      cases h
      exact ⟨hlt2, rfl, rfl, rfl, hsome, fun _ _ => rfl, Or.inl hsome⟩

/-- The entity after `AddComponent` set bit and address `ctypeID`. -/
theorem AddComponent_ok (MAX : Nat) (w w1 : World) (T : ComponentType) (entityId : UniqueID)
    (args a ptr : Nat) (e : Entity) (pool pool1 : IterablePoolAllocator)
    (hmap : w.IDToEntityMap entityId = some (some a))
    (hent : w.EntitiesAllocator a = some e)
    (hno : e.HasComponent (GetComponentID T) = false)
    (hGA : w.GetComponentAllocator MAX T = .ok pool w1)
    (hAlloc : pool.Alloc = some (ptr, pool1)) :
    w.AddComponent MAX T entityId args = .ok ()
      (((w1.storeAllocator (GetComponentID T) (pool1.Store ptr ⟨none, args⟩)).storeEntity a
          ((e.setFlag (GetComponentID T) true).setComponent (GetComponentID T) (some ptr))
        ).storeAllocator (GetComponentID T)
          ((pool1.Store ptr ⟨none, args⟩).SetOwner ptr (some a))) := by
  obtain ⟨_, hm1, he1, _, _, _, _⟩ := GetComponentAllocator_ok MAX w w1 T pool hGA
  have hidx : (w1.storeAllocator (GetComponentID T) (pool1.Store ptr ⟨none, args⟩)).index entityId
      = (some a, w1.storeAllocator (GetComponentID T) (pool1.Store ptr ⟨none, args⟩)) := by
    simp [index, storeAllocator, hm1, hmap]
  have hent1 : (w1.storeAllocator (GetComponentID T)
      (pool1.Store ptr ⟨none, args⟩)).EntitiesAllocator a = some e := by
    simp [storeAllocator, he1, hent]
  unfold AddComponent
  simp only [hGA, hAlloc, hidx, hent1, hno]
  simp [Entity.HasComponent, Entity.setFlag, Entity.setComponent]

theorem AddComponent_inv (MAX : Nat) (w w' : World) (T : ComponentType) (entityId : UniqueID)
    (args : Nat) (h : w.AddComponent MAX T entityId args = .ok () w') :
    ∃ (a ptr : Nat) (e : Entity) (pool pool1 : IterablePoolAllocator) (w1 : World),
      w.IDToEntityMap entityId = some (some a) ∧ w.EntitiesAllocator a = some e ∧
      e.HasComponent (GetComponentID T) = false ∧
      w.GetComponentAllocator MAX T = .ok pool w1 ∧ pool.Alloc = some (ptr, pool1) := by
  unfold AddComponent at h
  simp only at h
  split at h
  · cases h
  · rename_i pool w1 hGA
    obtain ⟨_, hm1, he1, _, _, _, _⟩ := GetComponentAllocator_ok MAX w w1 T pool hGA
    split at h
    · cases h
    · rename_i ptr pool1 hAlloc
      rcases hm : w.IDToEntityMap entityId with _ | _ | a
      · simp [index, storeAllocator, hm1, hm] at h
      · simp [index, storeAllocator, hm1, hm] at h
      · rcases hen : w.EntitiesAllocator a with _ | e
        · simp [index, storeAllocator, hm1, hm, he1, hen] at h
        · rcases hhas : e.HasComponent (GetComponentID T) with _ | _
          · exact ⟨a, ptr, e, pool, pool1, w1, rfl, hen, hhas, hGA, hAlloc⟩
          · simp [index, storeAllocator, hm1, hm, he1, hen, hhas] at h

theorem GetComponentAllocator_total (MAX : Nat) (w : World) (T : ComponentType)
    (hT : GetComponentID T < MAX) :
    ∃ pool w1, w.GetComponentAllocator MAX T = .ok pool w1 := by
  unfold GetComponentAllocator
  simp only [hT, not_true_eq_false, if_false]
  split
  · exact ⟨_, _, rfl⟩
  · exact ⟨_, _, rfl⟩

theorem RemoveComponent_ok (MAX : Nat) (w w3 : World) (T : ComponentType) (entityId : UniqueID)
    (a slot : Nat) (e : Entity) (pool : IterablePoolAllocator)
    (hmap : w.IDToEntityMap entityId = some (some a))
    (hent : w.EntitiesAllocator a = some e)
    (hhas : e.HasComponent (GetComponentID T) = true)
    (haddr : e.Components (GetComponentID T) = some slot)
    (hGA : (w.storeEntity a
        ((e.setFlag (GetComponentID T) false).setComponent (GetComponentID T) none)
        ).GetComponentAllocator MAX T = .ok pool w3) :
    w.RemoveComponent MAX T entityId = .ok () (w3.storeAllocator (GetComponentID T) (pool.Free slot)) := by
  have hidx : w.index entityId = (some a, w) := by simp [index, hmap]
  unfold RemoveComponent
  have haddr1 : (e.setFlag (GetComponentID T) false).Components (GetComponentID T)
      = some slot := haddr
  simp only [hidx, hent, hhas, haddr1, hGA]
  simp [Entity.HasComponent, Entity.setFlag, Entity.setComponent]

theorem RemoveComponent_inv (MAX : Nat) (w w' : World) (T : ComponentType) (entityId : UniqueID)
    (h : w.RemoveComponent MAX T entityId = .ok () w') :
    ∃ (a slot : Nat) (e : Entity),
      w.IDToEntityMap entityId = some (some a) ∧ w.EntitiesAllocator a = some e ∧
      e.HasComponent (GetComponentID T) = true ∧ e.Components (GetComponentID T) = some slot ∧
      GetComponentID T < MAX := by
  unfold RemoveComponent at h
  rcases hm : w.IDToEntityMap entityId with _ | _ | a
  · simp [index, hm] at h
  · simp [index, hm] at h
  · rcases hen : w.EntitiesAllocator a with _ | e
    · simp [index, hm, hen] at h
    · rcases hhas : e.HasComponent (GetComponentID T) with _ | _
      · simp [index, hm, hen, hhas] at h
      · rcases had : e.Components (GetComponentID T) with _ | slot
        · simp [index, hm, hen, hhas, had, Entity.Components_setFlag] at h
        · refine ⟨a, slot, e, rfl, hen, hhas, had, ?_⟩
          by_contra hT
          simp [index, hm, hen, hhas, had, GetComponentAllocator, hT, Entity.Components_setFlag] at h

end World


/-- C1: for a live entity id whose entity has no `T`, with a free slot in the pool of
`T` (`Alloc` returns `ptr`): `AddComponent<T>(id)` returns, the entity registered
under `id` then has `HasComponent(id_of<T>())` true, `World::GetComponent<T>(id)`
returns exactly `ptr`, and the component in slot `ptr` has the entity registered
under `id` as its `Owner`. -/
theorem AddComponent_attaches (MAX_COMPONENTS_COUNT : Nat) (w w1 : World) (T : ComponentType)
    (entityId : UniqueID) (args a ptr : Nat) (e : Entity) (pool pool1 : IterablePoolAllocator)
    (hvalid : entityId.IsValid = true)
    (hmap : w.IDToEntityMap entityId = some (some a))
    (hent : w.EntitiesAllocator a = some e)
    (hno : e.HasComponent (GetComponentID T) = false)
    (hGA : w.GetComponentAllocator MAX_COMPONENTS_COUNT T = .ok pool w1)
    (hAlloc : pool.Alloc = some (ptr, pool1)) :
    ∃ w', w.AddComponent MAX_COMPONENTS_COUNT T entityId args = .ok () w' ∧
      w'.IDToEntityMap entityId = some (some a) ∧
      (∃ e', w'.EntitiesAllocator a = some e' ∧ e'.HasComponent (GetComponentID T) = true) ∧
      w'.GetComponent T entityId = .ok (some ptr) w' ∧
      (∃ pool' c, w'.ComponentAllocators (GetComponentID T) = some pool' ∧
        pool'.Get ptr = some c ∧ c.Owner = some a) := by
  refine ⟨_, World.AddComponent_ok MAX_COMPONENTS_COUNT w w1 T entityId args a ptr e pool pool1
    hmap hent hno hGA hAlloc, ?_, ?_, ?_, ?_⟩
  · obtain ⟨_, hm1, _⟩ := World.GetComponentAllocator_ok MAX_COMPONENTS_COUNT w w1 T pool hGA
    simp [World.storeAllocator, World.storeEntity, hm1, hmap]
  · exact ⟨(e.setFlag (GetComponentID T) true).setComponent (GetComponentID T) (some ptr),
      if_pos rfl, if_pos rfl⟩
  · obtain ⟨_, hm1, _⟩ := World.GetComponentAllocator_ok MAX_COMPONENTS_COUNT w w1 T pool hGA
    unfold World.GetComponent
    simp [hvalid, World.find, World.deref, World.storeAllocator, World.storeEntity, hm1, hmap,
      Entity.GetComponent, Entity.HasComponent, Entity.setFlag, Entity.setComponent]
  · obtain ⟨_, _, _, hg⟩ := IterablePoolAllocator.Alloc_spec pool pool1 ptr hAlloc
    refine ⟨_, ⟨some a, args⟩, if_pos rfl, ?_, rfl⟩
    have h0 : pool1.IsLive ptr = true := by
      simp [IterablePoolAllocator.IsLive, hg]
    have h1 : (pool1.Store ptr ⟨none, args⟩).Get ptr = some ⟨none, args⟩ := by
      simp [IterablePoolAllocator.Get_Store, h0]
    have h2 : (pool1.Store ptr ⟨none, args⟩).IsLive ptr = true := by
      simp [IterablePoolAllocator.IsLive, h1]
    simp [IterablePoolAllocator.SetOwner, h1, IterablePoolAllocator.Get_Store, h2]

/-- C2: for a live entity id whose entity possesses `T` at the address `slot`:
`RemoveComponent<T>(id)` returns, the entity then has `HasComponent(id_of<T>())`
false, `World::GetComponent<T>(id)` returns null, and the pool of `T` in the world
after is the pool before with `Free(slot)` applied, so `slot` is not live in it. -/
theorem RemoveComponent_detaches (MAX_COMPONENTS_COUNT : Nat) (w : World) (T : ComponentType)
    (entityId : UniqueID) (a slot : Nat) (e : Entity)
    (hvalid : entityId.IsValid = true)
    (hT : GetComponentID T < MAX_COMPONENTS_COUNT)
    (hmap : w.IDToEntityMap entityId = some (some a))
    (hent : w.EntitiesAllocator a = some e)
    (hhas : e.HasComponent (GetComponentID T) = true)
    (haddr : e.Components (GetComponentID T) = some slot) :
    ∃ w', w.RemoveComponent MAX_COMPONENTS_COUNT T entityId = .ok () w' ∧
      w'.IDToEntityMap entityId = some (some a) ∧
      (∃ e', w'.EntitiesAllocator a = some e' ∧ e'.HasComponent (GetComponentID T) = false) ∧
      w'.GetComponent T entityId = .ok none w' ∧
      (∃ pool, (w.ComponentAllocators (GetComponentID T) = some pool ∨
          (w.ComponentAllocators (GetComponentID T) = none ∧
            pool = IterablePoolAllocator.create MAX_ENTITY_COUNT)) ∧
        w'.ComponentAllocators (GetComponentID T) = some (pool.Free slot)) ∧
      w'.IsLiveSlot T slot = false := by
  obtain ⟨pool, w3, hGA⟩ := World.GetComponentAllocator_total MAX_COMPONENTS_COUNT
    (w.storeEntity a
      ((e.setFlag (GetComponentID T) false).setComponent (GetComponentID T) none)) T hT
  obtain ⟨_, hm3, he3, _, _, _, hp3⟩ :=
    World.GetComponentAllocator_ok MAX_COMPONENTS_COUNT _ w3 T pool hGA
  refine ⟨_, World.RemoveComponent_ok MAX_COMPONENTS_COUNT w w3 T entityId a slot e pool
    hmap hent hhas haddr hGA, ?_, ?_, ?_, ?_, ?_⟩
  · simp [World.storeAllocator, hm3, World.storeEntity, hmap]
  · refine ⟨(e.setFlag (GetComponentID T) false).setComponent (GetComponentID T) none,
      ?_, if_pos rfl⟩
    show w3.EntitiesAllocator a = _
    rw [he3]
    exact if_pos rfl
  · unfold World.GetComponent
    simp [hvalid, World.find, World.deref, World.storeAllocator, World.storeEntity, hm3, he3,
      hmap, Entity.GetComponent, Entity.HasComponent, Entity.setFlag, Entity.setComponent]
  · exact ⟨pool, hp3, if_pos rfl⟩
  · simp [World.IsLiveSlot, World.storeAllocator, IterablePoolAllocator.IsLive_Free_self]



theorem Entity.GetComponent_set_ne (e : Entity) (T : ComponentType) (i : Nat) (b : Bool)
    (ptr : Option Nat) (h : i ≠ GetComponentID T) :
    ((e.setFlag i b).setComponent i ptr).GetComponent T = e.GetComponent T := by
  have h2 : GetComponentID T ≠ i := fun hc => h hc.symm
  simp [Entity.GetComponent, Entity.HasComponent, Entity.setFlag, Entity.setComponent, h2]

theorem Entity.PossessionInvariant_attach (e : Entity) (i ptr : Nat)
    (h : e.PossessionInvariant) :
    ((e.setFlag i true).setComponent i (some ptr)).PossessionInvariant := by
  intro k
  by_cases hk : k = i
  · simp [Entity.setFlag, Entity.setComponent, hk]
  · simpa [Entity.setFlag, Entity.setComponent, hk] using h k

theorem Entity.PossessionInvariant_detach (e : Entity) (i : Nat)
    (h : e.PossessionInvariant) :
    ((e.setFlag i false).setComponent i none).PossessionInvariant := by
  intro k
  by_cases hk : k = i
  · simp [Entity.setFlag, Entity.setComponent, hk]
  · simpa [Entity.setFlag, Entity.setComponent, hk] using h k

theorem Outcome.ok_inj {α : Type} {v v' : α} {w w' : World}
    (h : Outcome.ok v w = Outcome.ok v' w') : w = w' := by
  cases h
  rfl

/-- C5: the possession invariant (bit `i` set iff the address at index `i` is
non-null, for every `i`) holds for a zero-initialised entity, hence for the entity
`SpawnEntity` creates, and when it holds for every entity of a world it holds for
every entity of the world after a successful `AddComponent<T>` and after a
successful `RemoveComponent<T>`. -/
theorem possession_invariant_preserved :
    Entity.zeroed.PossessionInvariant ∧
    (∀ (w w' : World) (id : UniqueID) (slot : Nat),
      w.SpawnEntity id slot = .ok id w' → w.EntitiesInvariant →
        w'.EntitiesAllocator slot = some Entity.zeroed ∧ w'.EntitiesInvariant) ∧
    (∀ (MAX_COMPONENTS_COUNT : Nat) (w w' : World) (T : ComponentType) (entityId : UniqueID)
      (args : Nat), w.AddComponent MAX_COMPONENTS_COUNT T entityId args = .ok () w' →
        w.EntitiesInvariant → w'.EntitiesInvariant) ∧
    (∀ (MAX_COMPONENTS_COUNT : Nat) (w w' : World) (T : ComponentType) (entityId : UniqueID),
      w.RemoveComponent MAX_COMPONENTS_COUNT T entityId = .ok () w' →
        w.EntitiesInvariant → w'.EntitiesInvariant) := by
  have hz : Entity.zeroed.PossessionInvariant := by
    intro i
    simp [Entity.zeroed]
  refine ⟨hz, ?_, ?_, ?_⟩
  · intro w w' id slot h hinv
    unfold World.SpawnEntity at h
    split at h
    · cases h
    · cases h
      refine ⟨if_pos rfl, ?_⟩
      intro k ek hk
      by_cases hks : k = slot
      · simp [World.storeEntity, hks] at hk
        rw [← hk]
        exact hz
      · simp [World.storeEntity, hks] at hk
        exact hinv k ek hk
  · intro MAX w w' T entityId args h hinv
    obtain ⟨a, ptr, e, pool, pool1, w1, hmap, hent, hno, hGA, hAlloc⟩ :=
      World.AddComponent_inv MAX w w' T entityId args h
    have hw := Outcome.ok_inj
      ((World.AddComponent_ok MAX w w1 T entityId args a ptr e pool pool1 hmap hent hno hGA
        hAlloc).symm.trans h)
    obtain ⟨_, _, he1, _⟩ := World.GetComponentAllocator_ok MAX w w1 T pool hGA
    subst hw
    intro k ek hk
    by_cases hka : k = a
    · simp [World.storeAllocator, World.storeEntity, hka] at hk
      rw [← hk]
      exact Entity.PossessionInvariant_attach e _ ptr (hinv a e hent)
    · simp [World.storeAllocator, World.storeEntity, hka, he1] at hk
      exact hinv k ek hk
  · intro MAX w w' T entityId h hinv
    obtain ⟨a, slot, e, hmap, hent, hhas, haddr, hT⟩ :=
      World.RemoveComponent_inv MAX w w' T entityId h
    obtain ⟨pool, w3, hGA⟩ := World.GetComponentAllocator_total MAX
      (w.storeEntity a
        ((e.setFlag (GetComponentID T) false).setComponent (GetComponentID T) none)) T hT
    have hw := Outcome.ok_inj
      ((World.RemoveComponent_ok MAX w w3 T entityId a slot e pool hmap hent hhas haddr
        hGA).symm.trans h)
    obtain ⟨_, _, he3, _⟩ := World.GetComponentAllocator_ok MAX _ w3 T pool hGA
    subst hw
    intro k ek hk
    by_cases hka : k = a
    · simp [World.storeAllocator, World.storeEntity, hka, he3] at hk
      rw [← hk]
      exact Entity.PossessionInvariant_detach e _ (hinv a e hent)
    · simp [World.storeAllocator, World.storeEntity, hka, he3] at hk
      exact hinv k ek hk



theorem World.GetComponent_congr (w w' : World) (T : ComponentType) (entityId : UniqueID)
    (addr : Option Nat) (a : Nat) (e e' : Entity)
    (h : w.GetComponent T entityId = .ok addr w)
    (hm : w.IDToEntityMap entityId = some (some a))
    (hm' : w'.IDToEntityMap entityId = some (some a))
    (he : w.EntitiesAllocator a = some e) (he' : w'.EntitiesAllocator a = some e')
    (hg : e'.GetComponent T = e.GetComponent T) :
    w'.GetComponent T entityId = .ok addr w' := by
  unfold World.GetComponent at h ⊢
  by_cases hv : entityId.IsValid = true
  · simp [hv, World.find, World.deref, hm, he] at h
    simp [hv, World.find, World.deref, hm', he', hg, h]
  · simp [hv] at h

theorem World.GetComponent_ok_entity (w : World) (T : ComponentType) (entityId : UniqueID)
    (addr : Option Nat) (a : Nat)
    (h : w.GetComponent T entityId = .ok addr w)
    (hm : w.IDToEntityMap entityId = some (some a)) :
    ∃ e, w.EntitiesAllocator a = some e := by
  unfold World.GetComponent at h
  by_cases hv : entityId.IsValid = true
  · rcases he : w.EntitiesAllocator a with _ | e
    · simp [hv, World.find, World.deref, hm, he] at h
    · exact ⟨e, rfl⟩
  · simp [hv] at h

/-- C9: for a live entity id `e` for which `World::GetComponent<T>(e)` returns
`addr`: after every successful `AddComponent<U>(e2)` and every successful
`RemoveComponent<U>(e2)` with `(U, e2)` different from `(T, e)` (a different type
id, or a different id, which then names a different entity), the call
`World::GetComponent<T>(e)` returns the same `addr`; and a second consecutive
`GetComponent<T>(e)` returns what the first returned. -/
theorem GetComponent_address_stable (MAX_COMPONENTS_COUNT : Nat) (w : World)
    (T U : ComponentType) (e e2 : UniqueID) (a : Nat) (addr : Option Nat)
    (hlive : w.IDToEntityMap e = some (some a))
    (hget : w.GetComponent T e = .ok addr w)
    (hdiff : GetComponentID U ≠ GetComponentID T ∨ e2 ≠ e)
    (hinj : e2 ≠ e → w.IDToEntityMap e2 ≠ some (some a)) :
    (∀ (args : Nat) (w' : World), w.AddComponent MAX_COMPONENTS_COUNT U e2 args = .ok () w' →
        w'.GetComponent T e = .ok addr w') ∧
    (∀ w' : World, w.RemoveComponent MAX_COMPONENTS_COUNT U e2 = .ok () w' →
        w'.GetComponent T e = .ok addr w') ∧
    (w.GetComponent T e).world.GetComponent T e = w.GetComponent T e := by
  obtain ⟨ent, hent⟩ := World.GetComponent_ok_entity w T e addr a hget hlive
  refine ⟨?_, ?_, ?_⟩
  · intro args w' h
    obtain ⟨a2, ptr, e2ent, pool, pool1, w1, hmap, hent2, hno, hGA, hAlloc⟩ :=
      World.AddComponent_inv MAX_COMPONENTS_COUNT w w' U e2 args h
    have hw := Outcome.ok_inj
      ((World.AddComponent_ok MAX_COMPONENTS_COUNT w w1 U e2 args a2 ptr e2ent pool pool1 hmap
        hent2 hno hGA hAlloc).symm.trans h)
    obtain ⟨_, hm1, he1, _⟩ := World.GetComponentAllocator_ok MAX_COMPONENTS_COUNT w w1 U pool hGA
    subst hw
    by_cases ha : a = a2
    · subst ha
      have hU : GetComponentID U ≠ GetComponentID T := by
        rcases hdiff with hd | hd
        · exact hd
        · exact absurd hmap (hinj hd)
      have hee : e2ent = ent := by
        rw [hent2] at hent
        exact Option.some.inj hent
      subst hee
      exact World.GetComponent_congr w _ T e addr a e2ent _ hget hlive
        (by simp [World.storeAllocator, World.storeEntity, hm1, hlive]) hent (if_pos rfl)
        (Entity.GetComponent_set_ne e2ent T _ true (some ptr) hU)
    · exact World.GetComponent_congr w _ T e addr a ent ent hget hlive
        (by simp [World.storeAllocator, World.storeEntity, hm1, hlive]) hent
        (by simp [World.storeAllocator, World.storeEntity, ha, he1, hent]) rfl
  · intro w' h
    obtain ⟨a2, slot, e2ent, hmap, hent2, hhas, haddr, hT⟩ :=
      World.RemoveComponent_inv MAX_COMPONENTS_COUNT w w' U e2 h
    obtain ⟨pool, w3, hGA⟩ := World.GetComponentAllocator_total MAX_COMPONENTS_COUNT
      (w.storeEntity a2
        ((e2ent.setFlag (GetComponentID U) false).setComponent (GetComponentID U) none)) U hT
    have hw := Outcome.ok_inj
      ((World.RemoveComponent_ok MAX_COMPONENTS_COUNT w w3 U e2 a2 slot e2ent pool hmap hent2
        hhas haddr hGA).symm.trans h)
    obtain ⟨_, hm3, he3, _⟩ := World.GetComponentAllocator_ok MAX_COMPONENTS_COUNT _ w3 U pool hGA
    subst hw
    by_cases ha : a = a2
    · subst ha
      have hU : GetComponentID U ≠ GetComponentID T := by
        rcases hdiff with hd | hd
        · exact hd
        · exact absurd hmap (hinj hd)
      have hee : e2ent = ent := by
        rw [hent2] at hent
        exact Option.some.inj hent
      subst hee
      refine World.GetComponent_congr w _ T e addr a e2ent _ hget hlive
        (by simp [World.storeAllocator, World.storeEntity, hm3, hlive]) hent ?_
        (Entity.GetComponent_set_ne e2ent T _ false none hU)
      show w3.EntitiesAllocator a = _
      rw [he3]
      exact if_pos rfl
    · exact World.GetComponent_congr w _ T e addr a ent ent hget hlive
        (by simp [World.storeAllocator, World.storeEntity, hm3, hlive]) hent
        (by simp [World.storeAllocator, World.storeEntity, ha, he3, hent]) rfl
  · rw [hget]
    exact hget

/-! ## Iteration -/

theorem liveFrom_of_le (cap : Nat) (cs : List (Option ComponentBase)) (i : Nat) (h : cap ≤ i) :
    liveFrom cap cs i = [] := by
  cases cs with
  | nil => rfl
  | cons c cs => simp [liveFrom, h]

theorem filter_range'_eq_liveFrom (cap : Nat) (cs : List (Option ComponentBase)) (i n : Nat)
    (h : cap ≤ i + n) :
    (List.range' i n).filter (fun j => decide (j < cap) && (readCell cs (j - i)).isSome)
      = liveFrom cap cs i := by
  induction cs generalizing i n with
  | nil => simp [readCell_nil, liveFrom]
  | cons c cs ih =>
    cases n with
    | zero => simp [liveFrom, (by omega : cap ≤ i)]
    | succ n =>
      have htail : (List.range' (i + 1) n).filter
          (fun j => decide (j < cap) && (readCell (c :: cs) (j - i)).isSome)
          = liveFrom cap cs (i + 1) := by
        rw [← ih (i + 1) n (by omega)]
        apply List.filter_congr
        intro j hj
        have hj1 : i + 1 ≤ j := (List.mem_range'_1.mp hj).1
        have : j - i = (j - (i + 1)) + 1 := by omega
        rw [this]
        rfl
      rw [List.range'_succ, List.filter_cons, htail]
      by_cases hc : cap ≤ i
      · have : ¬ i < cap := by omega
        simp [liveFrom, hc, this, liveFrom_of_le cap cs (i + 1) (by omega)]
      · have : i < cap := by omega
        cases c with
        | none => simp [liveFrom, hc, readCell]
        | some c => simp [liveFrom, hc, this, readCell]

theorem IterablePoolAllocator.LiveSlots_eq_liveFrom (p : IterablePoolAllocator) :
    p.LiveSlots = liveFrom p.Capacity p.Cells 0 := by
  rw [← filter_range'_eq_liveFrom p.Capacity p.Cells 0 p.Capacity (by omega)]
  unfold IterablePoolAllocator.LiveSlots
  rw [List.range_eq_range']
  apply List.filter_congr
  intro j hj
  have hj1 : j < p.Capacity := by
    have := (List.mem_range'_1.mp hj).2
    omega
  simp [IterablePoolAllocator.IsLive, IterablePoolAllocator.Get, hj1]

theorem World.LiveInstances_eq_liveFrom (w : World) (T : ComponentType) :
    w.LiveInstances T =
      match w.ComponentAllocators (GetComponentID T) with
      | none => []
      | some pool => liveFrom pool.Capacity pool.Cells 0 := by
  unfold World.LiveInstances
  cases w.ComponentAllocators (GetComponentID T) with
  | none => rfl
  | some pool => exact IterablePoolAllocator.LiveSlots_eq_liveFrom pool




theorem drop_cons_readCell (l : List (Option ComponentBase)) (i : Nat) (c : Option ComponentBase)
    (cs : List (Option ComponentBase)) (h : l.drop i = c :: cs) :
    readCell l i = c ∧ l.drop (i + 1) = cs := by
  induction l generalizing i with
  | nil => simp at h
  | cons x xs ih =>
    cases i with
    | zero =>
      simp only [List.drop_zero, List.cons.injEq] at h
      exact ⟨h.1, by simpa using h.2⟩
    | succ i =>
      simp only [List.drop_succ_cons] at h
      exact ih i h

theorem passFrom_at_end (w : World) (p : IterablePoolAllocator) (Secondary : List ComponentType)
    (fuel : Nat) :
    passFrom w p Secondary ⟨p.End⟩ fuel ⟨⟨p.Capacity⟩⟩ = .ok [] := by
  cases fuel <;> simp [passFrom, ComponentIterator.eq, IterablePoolAllocator.End]

theorem passFrom_spec (w : World) (p : IterablePoolAllocator) (Secondary : List ComponentType)
    (hvalid : ∀ slot c, p.Get slot = some c → ∃ rest, siblings c w Secondary = some rest)
    (cs : List (Option ComponentBase)) (i fuel : Nat)
    (hcs : p.Cells.drop i = cs) (hfuel : p.Capacity - i ≤ fuel) :
    ∃ ts, passFrom w p Secondary ⟨p.End⟩ fuel ⟨⟨skipDead p.Capacity cs i⟩⟩ = .ok ts ∧
      List.Forall₂
        (fun slot t => ComponentIterator.star w p Secondary ⟨⟨slot⟩⟩ = some t ∧ t.1 = some slot)
        (liveFrom p.Capacity cs i) ts := by
  induction cs generalizing i fuel with
  | nil => exact ⟨[], by simpa [skipDead] using passFrom_at_end w p Secondary fuel, by simp [liveFrom]⟩
  | cons c cs ih =>
    obtain ⟨hread, hdrop⟩ := drop_cons_readCell p.Cells i c cs hcs
    by_cases hc : p.Capacity ≤ i
    · exact ⟨[], by simpa [skipDead, hc] using passFrom_at_end w p Secondary fuel,
        by simp [liveFrom, hc]⟩
    · cases c with
      | none =>
        obtain ⟨ts, hts, hall⟩ := ih (i + 1) fuel hdrop (by omega)
        exact ⟨ts, by simpa [skipDead, hc] using hts, by simpa [liveFrom, hc] using hall⟩
      | some comp =>
        have hlt : i < p.Capacity := by omega
        have hget : p.Get i = some comp := by simp [IterablePoolAllocator.Get, hlt, hread]
        obtain ⟨rest, hrest⟩ := hvalid i comp hget
        obtain ⟨f, hf⟩ : ∃ f, fuel = f + 1 := ⟨fuel - 1, by omega⟩
        subst hf
        obtain ⟨ts, hts, hall⟩ := ih (i + 1) f hdrop (by omega)
        have hstar : ComponentIterator.star w p Secondary ⟨⟨i⟩⟩ = some (some i, rest) := by
          simp [ComponentIterator.star, hget, hrest]
        have hne : ComponentIterator.eq ⟨⟨i⟩⟩ ⟨p.End⟩ = false := by
          simp [ComponentIterator.eq, IterablePoolAllocator.End]
          omega
        have hincr : ComponentIterator.incr p ⟨⟨i⟩⟩ = ⟨⟨skipDead p.Capacity cs (i + 1)⟩⟩ := by
          simp [ComponentIterator.incr, IterablePoolAllocator.Next, hdrop]
        refine ⟨(some i, rest) :: ts, ?_, ?_⟩
        · simp only [skipDead, hc, if_false, Option.isSome_some, if_true]
          rw [passFrom]
          simp [hne, hstar, hincr, hts]
        · simp only [liveFrom, hc, if_false, Option.isSome_some, if_true]
          exact List.Forall₂.cons ⟨hstar, rfl⟩ hall

theorem passFrom_mem (w : World) (p : IterablePoolAllocator) (Secondary : List ComponentType)
    (last : ComponentIterator) (fuel : Nat) (it : ComponentIterator) (ts : List ComponentTuple)
    (h : passFrom w p Secondary last fuel it = .ok ts) :
    ∀ t ∈ ts, ∃ it', ComponentIterator.star w p Secondary it' = some t := by
  induction fuel generalizing it ts with
  | zero =>
    rw [passFrom] at h
    split at h
    · cases h
      simp
    · cases h
  | succ f ih =>
    rw [passFrom] at h
    split at h
    · cases h
      simp
    · split at h
      · cases h
      · rename_i t hstar
        split at h
        · rename_i ts' hrec
          cases h
          intro t' ht'
          rcases List.mem_cons.mp ht' with heq | hmem
          · exact ⟨it, heq ▸ hstar⟩
          · exact ih _ _ hrec t' hmem
        · cases h



theorem World.GetComponentAllocator_again (MAX : Nat) (w w1 : World) (T : ComponentType)
    (pool : IterablePoolAllocator) (h : w.GetComponentAllocator MAX T = .ok pool w1) :
    w1.GetComponentAllocator MAX T = .ok pool w1 := by
  obtain ⟨hlt, _, _, _, hp, _, _⟩ := World.GetComponentAllocator_ok MAX w w1 T pool h
  simp [World.GetComponentAllocator, hlt, hp]

theorem World.IterateComponents_ok (MAX : Nat) (w w1 : World) (Primary : ComponentType)
    (Secondary : List ComponentType) (pool : IterablePoolAllocator) (ts : List ComponentTuple)
    (h : w.GetComponentAllocator MAX Primary = .ok pool w1)
    (hpass : passFrom w1 pool Secondary ⟨pool.End⟩ pool.Capacity ⟨pool.Begin⟩ = .ok ts) :
    w.IterateComponents MAX Primary Secondary = .ok ts w1 := by
  obtain ⟨_, _, _, _, hp, _, _⟩ := World.GetComponentAllocator_ok MAX w w1 Primary pool h
  simp [World.IterateComponents, IteratorProxy.Begin, IteratorProxy.End, h,
    World.GetComponentAllocator_again MAX w w1 Primary pool h, hp, hpass]

theorem World.IterateComponents_inv (MAX : Nat) (w w' : World) (Primary : ComponentType)
    (Secondary : List ComponentType) (ts : List ComponentTuple)
    (h : w.IterateComponents MAX Primary Secondary = .ok ts w') :
    ∃ pool, w.GetComponentAllocator MAX Primary = .ok pool w' ∧
      passFrom w' pool Secondary ⟨pool.End⟩ pool.Capacity ⟨pool.Begin⟩ = .ok ts := by
  rcases hGA : w.GetComponentAllocator MAX Primary with ⟨pool, w1⟩ | ⟨f, w1⟩
  · obtain ⟨_, _, _, _, hp, _, _⟩ := World.GetComponentAllocator_ok MAX w w1 Primary pool hGA
    rcases hpass : passFrom w1 pool Secondary ⟨pool.End⟩ pool.Capacity ⟨pool.Begin⟩ with f | ts1
    · simp [World.IterateComponents, IteratorProxy.Begin, IteratorProxy.End, hGA,
        World.GetComponentAllocator_again MAX w w1 Primary pool hGA, hp, hpass] at h
    · simp [World.IterateComponents, IteratorProxy.Begin, IteratorProxy.End, hGA,
        World.GetComponentAllocator_again MAX w w1 Primary pool hGA, hp, hpass] at h
      obtain ⟨h1, h2⟩ := h
      subst h1
      subst h2
      exact ⟨pool, rfl, hpass⟩
  · simp [World.IterateComponents, IteratorProxy.Begin, hGA] at h

theorem World.LiveInstances_after_GetComponentAllocator (MAX : Nat) (w w1 : World)
    (T : ComponentType) (pool : IterablePoolAllocator)
    (h : w.GetComponentAllocator MAX T = .ok pool w1) :
    w.LiveInstances T = pool.LiveSlots ∧ w1.LiveInstances T = pool.LiveSlots := by
  obtain ⟨_, _, _, _, hp, _, hor⟩ := World.GetComponentAllocator_ok MAX w w1 T pool h
  refine ⟨?_, by simp [World.LiveInstances, hp]⟩
  rcases hor with h1 | ⟨h1, h2⟩
  · simp [World.LiveInstances, h1]
  · subst h2
    simp [World.LiveInstances, h1, IterablePoolAllocator.LiveSlots_eq_liveFrom,
      IterablePoolAllocator.create, liveFrom]

theorem forall₂_map_fst (slots : List Nat) (ts : List ComponentTuple) (R : Nat → ComponentTuple → Prop)
    (h : List.Forall₂ (fun slot t => R slot t ∧ t.1 = some slot) slots ts) :
    ts.map Prod.fst = slots.map some := by
  induction h with
  | nil => rfl
  | cons hd _ ih => simp [hd.2, ih]

theorem siblings_nil (c : ComponentBase) (w : World) : siblings c w [] = some [] := rfl

theorem IterablePoolAllocator.LiveSlots_pairwise (p : IterablePoolAllocator) :
    List.Pairwise (· < ·) p.LiveSlots :=
  List.Pairwise.filter _ (List.pairwise_lt_range p.Capacity)

theorem World.LiveInstances_pairwise (w : World) (T : ComponentType) :
    List.Pairwise (· < ·) (w.LiveInstances T) := by
  unfold World.LiveInstances
  cases w.ComponentAllocators (GetComponentID T) with
  | none => exact List.Pairwise.nil
  | some pool => exact pool.LiveSlots_pairwise

/-! ### Attached components and live instances -/

theorem IterablePoolAllocator.mem_LiveSlots (p : IterablePoolAllocator) (i : Nat) :
    i ∈ p.LiveSlots ↔ (p.Get i).isSome = true := by
  unfold IterablePoolAllocator.LiveSlots
  rw [List.mem_filter, List.mem_range]
  constructor
  · intro h
    exact h.2
  · intro h
    refine ⟨?_, h⟩
    by_contra hc
    simp [IterablePoolAllocator.Get, hc] at h

theorem World.mem_LiveInstances (w : World) (T : ComponentType) (i : Nat) :
    i ∈ w.LiveInstances T ↔ (w.PoolGet T i).isSome = true := by
  unfold World.LiveInstances World.PoolGet
  cases w.ComponentAllocators (GetComponentID T) with
  | none => simp
  | some pool => exact pool.mem_LiveSlots i

theorem World.LiveInstances_nodup (w : World) (T : ComponentType) :
    (w.LiveInstances T).Nodup :=
  (World.LiveInstances_pairwise w T).imp (fun h => Nat.ne_of_lt h)

/-- In a world whose pool of `T` agrees with its entities, the entities with a `T`
attached are as many as the live instances of `T`. -/
theorem World.ncard_Attached_eq (w : World) (T : ComponentType) (h : w.PoolConsistent T) :
    (w.Attached T).ncard = (w.LiveInstances T).length := by
  let g : Nat → Nat := fun slot =>
    match w.PoolGet T slot with
    | some c => c.Owner.getD 0
    | none => 0
  have hS : w.Attached T = g '' (↑(w.LiveInstances T).toFinset : Set Nat) := by
    ext a
    constructor
    · rintro ⟨e, he, hhas⟩
      obtain ⟨slot, c, _, hget, hown⟩ := h.1 a e he hhas
      refine ⟨slot, ?_, ?_⟩
      · simp [World.mem_LiveInstances, hget]
      · simp [g, hget, hown]
    · rintro ⟨slot, hslot, rfl⟩
      have hl : (w.PoolGet T slot).isSome = true := by
        simpa [World.mem_LiveInstances] using hslot
      obtain ⟨c, hget⟩ := Option.isSome_iff_exists.mp hl
      obtain ⟨a, e, hown, he, hhas, _⟩ := h.2 slot c hget
      exact ⟨e, by simpa [g, hget, hown] using he, hhas⟩
  have hinj : Set.InjOn g (↑(w.LiveInstances T).toFinset : Set Nat) := by
    intro s1 h1 s2 h2 heq
    have hl1 : (w.PoolGet T s1).isSome = true := by simpa [World.mem_LiveInstances] using h1
    have hl2 : (w.PoolGet T s2).isSome = true := by simpa [World.mem_LiveInstances] using h2
    obtain ⟨c1, hg1⟩ := Option.isSome_iff_exists.mp hl1
    obtain ⟨c2, hg2⟩ := Option.isSome_iff_exists.mp hl2
    obtain ⟨a1, e1, ho1, he1, _, hc1⟩ := h.2 s1 c1 hg1
    obtain ⟨a2, e2, ho2, he2, _, hc2⟩ := h.2 s2 c2 hg2
    have ha : a1 = a2 := by simpa [g, hg1, hg2, ho1, ho2] using heq
    subst ha
    rw [he1] at he2
    have hee : e1 = e2 := Option.some.inj he2
    subst hee
    rw [hc1] at hc2
    exact Option.some.inj hc2
  rw [hS, Set.ncard_image_of_injOn hinj, Set.ncard_coe_Finset,
    List.toFinset_card_of_nodup (World.LiveInstances_nodup w T)]



theorem World.PoolGet_after_GetComponentAllocator (MAX : Nat) (w w1 : World) (T : ComponentType)
    (pool : IterablePoolAllocator) (h : w.GetComponentAllocator MAX T = .ok pool w1) :
    (∀ j, w.PoolGet T j = pool.Get j) ∧ (∀ j, w1.PoolGet T j = pool.Get j) := by
  obtain ⟨_, _, _, _, hp, _, hor⟩ := World.GetComponentAllocator_ok MAX w w1 T pool h
  refine ⟨?_, fun j => by simp [World.PoolGet, hp]⟩
  intro j
  rcases hor with h1 | ⟨h1, h2⟩
  · simp [World.PoolGet, h1]
  · subst h2
    simp [World.PoolGet, h1, IterablePoolAllocator.Get, IterablePoolAllocator.create,
      readCell_nil]

theorem World.PoolConsistent_frame (w w' : World) (T : ComponentType)
    (hE : ∀ (a : Nat) (e' : Entity), w'.EntitiesAllocator a = some e' →
      e'.HasComponent (GetComponentID T) = true →
      ∃ e, w.EntitiesAllocator a = some e ∧ e.HasComponent (GetComponentID T) = true ∧
        e.Components (GetComponentID T) = e'.Components (GetComponentID T))
    (hE2 : ∀ (a : Nat) (e : Entity), w.EntitiesAllocator a = some e →
      e.HasComponent (GetComponentID T) = true →
      ∃ e', w'.EntitiesAllocator a = some e' ∧ e'.HasComponent (GetComponentID T) = true ∧
        e'.Components (GetComponentID T) = e.Components (GetComponentID T))
    (hP : ∀ i, w'.PoolGet T i = w.PoolGet T i)
    (h : w.PoolConsistent T) : w'.PoolConsistent T := by
  constructor
  · intro a e' he' hhas
    obtain ⟨e, he, hh, hc⟩ := hE a e' he' hhas
    obtain ⟨slot, c, hs, hg, ho⟩ := h.1 a e he hh
    exact ⟨slot, c, by rw [← hc, hs], by rw [hP, hg], ho⟩
  · intro slot c hg
    rw [hP] at hg
    obtain ⟨a, e, ho, he, hh, hc⟩ := h.2 slot c hg
    obtain ⟨e', he', hh', hc'⟩ := hE2 a e he hh
    exact ⟨a, e', ho, he', hh', by rw [hc', hc]⟩

theorem Entity.HasComponent_set_ne (e : Entity) (i j : Nat) (b : Bool) (ptr : Option Nat)
    (h : j ≠ i) :
    ((e.setFlag i b).setComponent i ptr).HasComponent j = e.HasComponent j ∧
      ((e.setFlag i b).setComponent i ptr).Components j = e.Components j := by
  simp [Entity.HasComponent, Entity.setFlag, Entity.setComponent, h]

theorem World.PoolConsistent_of_entity_set_ne (w w' : World) (T : ComponentType) (a i : Nat)
    (b : Bool) (ptr : Option Nat) (e : Entity) (hi : GetComponentID T ≠ i)
    (hent : w.EntitiesAllocator a = some e)
    (hE : ∀ k, w'.EntitiesAllocator k =
      if k = a then some ((e.setFlag i b).setComponent i ptr) else w.EntitiesAllocator k)
    (hP : w'.ComponentAllocators (GetComponentID T) = w.ComponentAllocators (GetComponentID T))
    (h : w.PoolConsistent T) : w'.PoolConsistent T := by
  obtain ⟨h1, h2⟩ := Entity.HasComponent_set_ne e i (GetComponentID T) b ptr hi
  apply World.PoolConsistent_frame w w' T ?_ ?_ ?_ h
  · intro k e' he' hhas
    rw [hE k] at he'
    by_cases hk : k = a
    · subst hk
      simp only [if_true, Option.some.injEq] at he'
      subst he'
      exact ⟨e, hent, by rw [← h1]; exact hhas, h2.symm⟩
    · simp only [hk, if_false] at he'
      exact ⟨e', he', hhas, rfl⟩
  · intro k ek hek hhas
    by_cases hk : k = a
    · subst hk
      rw [hent] at hek
      have := Option.some.inj hek
      subst this
      exact ⟨_, by rw [hE k]; simp, by rw [h1]; exact hhas, h2⟩
    · exact ⟨ek, by rw [hE k]; simp [hk, hek], hhas, rfl⟩
  · intro j
    simp [World.PoolGet, hP]



theorem IterablePoolAllocator.Get_constructed (p p1 : IterablePoolAllocator) (ptr args : Nat)
    (owner : Option Nat) (h : p.Alloc = some (ptr, p1)) (j : Nat) :
    ((p1.Store ptr ⟨none, args⟩).SetOwner ptr owner).Get j =
      if j = ptr then some ⟨owner, args⟩ else p.Get j := by
  obtain ⟨_, _, _, hg⟩ := IterablePoolAllocator.Alloc_spec p p1 ptr h
  have h0 : p1.IsLive ptr = true := by simp [IterablePoolAllocator.IsLive, hg]
  have h1 : (p1.Store ptr ⟨none, args⟩).Get ptr = some ⟨none, args⟩ := by
    simp [IterablePoolAllocator.Get_Store, h0]
  have h2 : (p1.Store ptr ⟨none, args⟩).IsLive ptr = true := by
    simp [IterablePoolAllocator.IsLive, h1]
  by_cases hj : j = ptr
  · simp [IterablePoolAllocator.SetOwner, h1, IterablePoolAllocator.Get_Store, h2, hj]
  · simp [IterablePoolAllocator.SetOwner, h1, IterablePoolAllocator.Get_Store, hj, hg]

theorem World.PoolConsistent_attach (w w' : World) (T : ComponentType) (a ptr : Nat) (e : Entity)
    (c : ComponentBase)
    (hent : w.EntitiesAllocator a = some e)
    (hno : e.HasComponent (GetComponentID T) = false)
    (hfree : w.PoolGet T ptr = none)
    (hE : ∀ k, w'.EntitiesAllocator k =
      if k = a then
        some ((e.setFlag (GetComponentID T) true).setComponent (GetComponentID T) (some ptr))
      else w.EntitiesAllocator k)
    (hP : ∀ j, w'.PoolGet T j = if j = ptr then some c else w.PoolGet T j)
    (hc : c.Owner = some a)
    (h : w.PoolConsistent T) : w'.PoolConsistent T := by
  constructor
  · intro k ek hek hhas
    rw [hE k] at hek
    by_cases hk : k = a
    · subst hk
      simp only [if_true, Option.some.injEq] at hek
      subst hek
      exact ⟨ptr, c, by simp [Entity.setComponent], by simp [hP], hc⟩
    · simp only [hk, if_false] at hek
      obtain ⟨slot, c', hs, hg, ho⟩ := h.1 k ek hek hhas
      have hne : slot ≠ ptr := by
        intro heq
        rw [heq, hfree] at hg
        cases hg
      exact ⟨slot, c', hs, by simp [hP, hne, hg], ho⟩
  · intro slot c' hg
    rw [hP slot] at hg
    by_cases hs : slot = ptr
    · subst hs
      simp only [if_true, Option.some.injEq] at hg
      subst hg
      exact ⟨a, (e.setFlag (GetComponentID T) true).setComponent (GetComponentID T) (some slot),
        hc, by rw [hE a]; simp, if_pos rfl, if_pos rfl⟩
    · simp only [hs, if_false] at hg
      obtain ⟨a', e', ho, he', hh, hcmp⟩ := h.2 slot c' hg
      have hne : a' ≠ a := by
        intro heq
        subst heq
        rw [hent] at he'
        have := Option.some.inj he'
        subst this
        rw [hno] at hh
        cases hh
      exact ⟨a', e', ho, by rw [hE a']; simp [hne, he'], hh, hcmp⟩

theorem World.PoolConsistent_detach (w w' : World) (T : ComponentType) (a slot : Nat)
    (e : Entity)
    (hent : w.EntitiesAllocator a = some e)
    (hhas : e.HasComponent (GetComponentID T) = true)
    (haddr : e.Components (GetComponentID T) = some slot)
    (hE : ∀ k, w'.EntitiesAllocator k =
      if k = a then
        some ((e.setFlag (GetComponentID T) false).setComponent (GetComponentID T) none)
      else w.EntitiesAllocator k)
    (hP : ∀ j, w'.PoolGet T j = if j = slot then none else w.PoolGet T j)
    (h : w.PoolConsistent T) : w'.PoolConsistent T := by
  obtain ⟨sa, ca, hsa, hga, hoa⟩ := h.1 a e hent hhas
  have hsa' : sa = slot := by
    rw [haddr] at hsa
    exact (Option.some.inj hsa).symm
  subst hsa'
  constructor
  · intro k ek hek hh
    rw [hE k] at hek
    by_cases hk : k = a
    · subst hk
      simp only [if_true, Option.some.injEq] at hek
      subst hek
      simp [Entity.HasComponent, Entity.setFlag, Entity.setComponent] at hh
    · simp only [hk, if_false] at hek
      obtain ⟨s', c', hs, hg, ho⟩ := h.1 k ek hek hh
      have hne : s' ≠ sa := by
        intro heq
        subst heq
        rw [hga] at hg
        have := Option.some.inj hg
        subst this
        rw [hoa] at ho
        exact hk (Option.some.inj ho).symm
      exact ⟨s', c', hs, by simp [hP, hne, hg], ho⟩
  · intro s' c' hg
    rw [hP s'] at hg
    by_cases hs : s' = sa
    · simp [hs] at hg
    · simp only [hs, if_false] at hg
      obtain ⟨a', e', ho, he', hh, hcmp⟩ := h.2 s' c' hg
      have hne : a' ≠ a := by
        intro heq
        subst heq
        rw [hent] at he'
        have := Option.some.inj he'
        subst this
        rw [haddr] at hcmp
        exact hs (Option.some.inj hcmp).symm
      exact ⟨a', e', ho, by rw [hE a']; simp [hne, he'], hh, hcmp⟩



theorem World.PoolConsistent_congr (w : World) (T U : ComponentType)
    (h : GetComponentID U = GetComponentID T) : w.PoolConsistent U → w.PoolConsistent T := by
  unfold World.PoolConsistent World.PoolGet
  rw [h]
  exact id

/-- The pools and the entities stay in agreement along `SpawnEntity` and successful
`AddComponent<U>` and `RemoveComponent<U>` calls, starting from the empty world. -/
theorem PoolConsistent_preserved :
    (∀ T : ComponentType, World.empty.PoolConsistent T) ∧
    (∀ (w w' : World) (id : UniqueID) (slot : Nat) (T : ComponentType),
      w.SpawnEntity id slot = .ok id w' → w.PoolConsistent T → w'.PoolConsistent T) ∧
    (∀ (MAX_COMPONENTS_COUNT : Nat) (w w' : World) (U T : ComponentType) (entityId : UniqueID)
      (args : Nat), w.AddComponent MAX_COMPONENTS_COUNT U entityId args = .ok () w' →
        w.PoolConsistent T → w'.PoolConsistent T) ∧
    (∀ (MAX_COMPONENTS_COUNT : Nat) (w w' : World) (U T : ComponentType) (entityId : UniqueID),
      w.RemoveComponent MAX_COMPONENTS_COUNT U entityId = .ok () w' →
        w.PoolConsistent T → w'.PoolConsistent T) := by
  refine ⟨?_, ?_, ?_, ?_⟩
  · intro T
    exact ⟨fun _ _ h => by simp [World.empty] at h,
      fun _ _ h => by simp [World.PoolGet, World.empty] at h⟩
  · intro w w' id slot T h hc
    unfold World.SpawnEntity at h
    split at h
    · cases h
    · rename_i hfree
      have hslot : w.EntitiesAllocator slot = none := by
        rcases hs : w.EntitiesAllocator slot with _ | e
        · rfl
        · exact absurd (Or.inr (by simp [hs])) hfree
      cases h
      apply World.PoolConsistent_frame w _ T ?_ ?_ ?_ hc
      · intro k e' he' hhas
        simp only [World.storeEntity] at he'
        by_cases hk : k = slot
        · simp only [hk, if_true, Option.some.injEq] at he'
          subst he'
          simp [Entity.HasComponent, Entity.zeroed] at hhas
        · simp only [hk, if_false] at he'
          exact ⟨e', he', hhas, rfl⟩
      · intro k e he hhas
        have hk : k ≠ slot := by
          intro heq
          rw [heq, hslot] at he
          cases he
        exact ⟨e, by simp [World.storeEntity, hk, he], hhas, rfl⟩
      · intro j
        rfl
  · intro MAX w w' U T entityId args h hc
    obtain ⟨a, ptr, e, pool, pool1, w1, hmap, hent, hno, hGA, hAlloc⟩ :=
      World.AddComponent_inv MAX w w' U entityId args h
    have hw := Outcome.ok_inj
      ((World.AddComponent_ok MAX w w1 U entityId args a ptr e pool pool1 hmap hent hno hGA
        hAlloc).symm.trans h)
    obtain ⟨_, _, he1, _, _, hother, _⟩ := World.GetComponentAllocator_ok MAX w w1 U pool hGA
    obtain ⟨hpg, _⟩ := World.PoolGet_after_GetComponentAllocator MAX w w1 U pool hGA
    obtain ⟨_, hfree, _, _⟩ := IterablePoolAllocator.Alloc_spec pool pool1 ptr hAlloc
    subst hw
    have hE : ∀ k, (((w1.storeAllocator (GetComponentID U)
        (pool1.Store ptr ⟨none, args⟩)).storeEntity a
          ((e.setFlag (GetComponentID U) true).setComponent (GetComponentID U)
            (some ptr))).storeAllocator (GetComponentID U)
          ((pool1.Store ptr ⟨none, args⟩).SetOwner ptr (some a))).EntitiesAllocator k =
        if k = a then
          some ((e.setFlag (GetComponentID U) true).setComponent (GetComponentID U) (some ptr))
        else w.EntitiesAllocator k := by
      intro k
      simp [World.storeAllocator, World.storeEntity, he1]
    by_cases hid : GetComponentID U = GetComponentID T
    · apply World.PoolConsistent_congr _ T U hid
      apply World.PoolConsistent_attach w _ U a ptr e ⟨some a, args⟩ hent hno
        (by rw [hpg, hfree]) hE ?_ rfl (World.PoolConsistent_congr w U T hid.symm hc)
      intro j
      rw [hpg j, ← IterablePoolAllocator.Get_constructed pool pool1 ptr args (some a) hAlloc j]
      simp [World.PoolGet, World.storeAllocator]
    · have hid2 : GetComponentID T ≠ GetComponentID U := fun hc => hid hc.symm
      apply World.PoolConsistent_of_entity_set_ne w _ T a (GetComponentID U) true (some ptr) e
        hid2 hent hE ?_ hc
      simp [World.storeAllocator, World.storeEntity, hid2, hother _ hid2]
  · intro MAX w w' U T entityId h hc
    obtain ⟨a, slot, e, hmap, hent, hhas, haddr, hT⟩ :=
      World.RemoveComponent_inv MAX w w' U entityId h
    obtain ⟨pool, w3, hGA⟩ := World.GetComponentAllocator_total MAX
      (w.storeEntity a
        ((e.setFlag (GetComponentID U) false).setComponent (GetComponentID U) none)) U hT
    have hw := Outcome.ok_inj
      ((World.RemoveComponent_ok MAX w w3 U entityId a slot e pool hmap hent hhas haddr
        hGA).symm.trans h)
    obtain ⟨_, _, he3, _, _, hother, _⟩ := World.GetComponentAllocator_ok MAX _ w3 U pool hGA
    obtain ⟨hpg, _⟩ := World.PoolGet_after_GetComponentAllocator MAX _ w3 U pool hGA
    subst hw
    have hE : ∀ k, (w3.storeAllocator (GetComponentID U) (pool.Free slot)).EntitiesAllocator k =
        if k = a then
          some ((e.setFlag (GetComponentID U) false).setComponent (GetComponentID U) none)
        else w.EntitiesAllocator k := by
      intro k
      simp [World.storeAllocator, World.storeEntity, he3]
    by_cases hid : GetComponentID U = GetComponentID T
    · apply World.PoolConsistent_congr _ T U hid
      apply World.PoolConsistent_detach w _ U a slot e hent hhas haddr hE ?_
        (World.PoolConsistent_congr w U T hid.symm hc)
      intro j
      have hpj : w.PoolGet U j = pool.Get j := by
        rw [← hpg j]
        rfl
      rw [hpj, ← IterablePoolAllocator.Get_Free]
      simp [World.PoolGet, World.storeAllocator]
    · have hid2 : GetComponentID T ≠ GetComponentID U := fun hc => hid hc.symm
      apply World.PoolConsistent_of_entity_set_ne w _ T a (GetComponentID U) false none e
        hid2 hent hE ?_ hc
      simp [World.storeAllocator, World.storeEntity, hid2, hother _ hid2]

/-! ### Passes -/

/-- C7: in a world with exactly `N` live instances of `A`, the pass that starts at
`IterateComponents<A>().Begin()` and steps with `operator++` until the cursor
equals `End()` returns; it yields exactly `N` tuples, their first elements are the
addresses of the live instances of `A`, each once and none skipped, in the pool's
(ascending) iteration order, none of them null, and the pass leaves the live
instances as they were.  In a world whose pool of `A` agrees with its entities the
live instances are as many as the entities with an `A` attached, so the pass
yields exactly `N` tuples when exactly `N` components of type `A` are attached.  In
particular, after the only `Position` was removed (and a second entity spawned) the
pass yields zero tuples. -/
theorem IterateComponents_one_tuple_per_live_instance :
    (∀ (MAX_COMPONENTS_COUNT : Nat) (w : World) (A : ComponentType) (N : Nat),
      GetComponentID A < MAX_COMPONENTS_COUNT → (w.LiveInstances A).length = N →
      ∃ (ts : List ComponentTuple) (w' : World),
        w.IterateComponents MAX_COMPONENTS_COUNT A [] = .ok ts w' ∧
        ts.length = N ∧
        ts.map Prod.fst = (w.LiveInstances A).map some ∧
        (∀ t ∈ ts, t.1 ≠ none) ∧
        (ts.map Prod.fst).Nodup ∧
        List.Pairwise (· < ·) (w.LiveInstances A) ∧
        w'.LiveInstances A = w.LiveInstances A) ∧
    (∀ (MAX_COMPONENTS_COUNT : Nat) (w : World) (A : ComponentType) (N : Nat),
      GetComponentID A < MAX_COMPONENTS_COUNT → w.PoolConsistent A →
      (w.Attached A).ncard = N →
      ∃ (ts : List ComponentTuple) (w' : World),
        w.IterateComponents MAX_COMPONENTS_COUNT A [] = .ok ts w' ∧ ts.length = N ∧
        (∀ t ∈ ts, t.1 ≠ none) ∧ (ts.map Prod.fst).Nodup) ∧
    (((Scenario.onePosition.RemoveComponent 64 Scenario.Position 101).world.SpawnEntity
        102 1).world.IterateComponents 64 Scenario.Position []).value? = some [] := by
  have main : ∀ (MAX_COMPONENTS_COUNT : Nat) (w : World) (A : ComponentType) (N : Nat),
      GetComponentID A < MAX_COMPONENTS_COUNT → (w.LiveInstances A).length = N →
      ∃ (ts : List ComponentTuple) (w' : World),
        w.IterateComponents MAX_COMPONENTS_COUNT A [] = .ok ts w' ∧
        ts.length = N ∧
        ts.map Prod.fst = (w.LiveInstances A).map some ∧
        (∀ t ∈ ts, t.1 ≠ none) ∧
        (ts.map Prod.fst).Nodup ∧
        List.Pairwise (· < ·) (w.LiveInstances A) ∧
        w'.LiveInstances A = w.LiveInstances A := by
    intro MAX w A N hA hN
    obtain ⟨pool, w1, hGA⟩ := World.GetComponentAllocator_total MAX w A hA
    obtain ⟨hl, hl1⟩ := World.LiveInstances_after_GetComponentAllocator MAX w w1 A pool hGA
    obtain ⟨ts, hts, hall⟩ := passFrom_spec w1 pool [] (fun _ c _ => ⟨[], siblings_nil c w1⟩)
      pool.Cells 0 pool.Capacity (by simp) (by omega)
    have hfst : ts.map Prod.fst = (w.LiveInstances A).map some := by
      rw [hl, IterablePoolAllocator.LiveSlots_eq_liveFrom]
      exact forall₂_map_fst _ _ _ hall
    have hpw := World.LiveInstances_pairwise w A
    refine ⟨ts, w1, ?_, ?_, hfst, ?_, ?_, hpw, by rw [hl, hl1]⟩
    · exact World.IterateComponents_ok MAX w w1 A [] pool ts hGA hts
    · have := congrArg List.length hfst
      simpa [hN] using this
    · intro t ht
      have hmem : t.1 ∈ ts.map Prod.fst := List.mem_map_of_mem _ ht
      rw [hfst] at hmem
      obtain ⟨s, _, hs⟩ := List.mem_map.mp hmem
      rw [← hs]
      simp
    · rw [hfst]
      exact (hpw.imp (fun h => Nat.ne_of_lt h)).map _ (fun _ _ h => by simpa using h)
  refine ⟨main, ?_, by decide⟩
  intro MAX w A N hA hcons hN
  obtain ⟨ts, w', hrun, hlen, _, hnn, hnd, _, _⟩ :=
    main MAX w A N hA ((World.ncard_Attached_eq w A hcons).symm.trans hN)
  exact ⟨ts, w', hrun, hlen, hnn, hnd⟩

theorem ComponentIterator.star_one_inv (w : World) (p : IterablePoolAllocator) (B : ComponentType)
    (it : ComponentIterator) (t : ComponentTuple)
    (h : it.star w p [B] = some t) :
    ∃ c e, p.Get it.primary_iter.idx = some c ∧ w.deref c.Owner = some e ∧
      t = (some it.primary_iter.idx, [e.GetComponent B]) := by
  unfold ComponentIterator.star at h
  rcases hg : p.Get it.primary_iter.idx with _ | c
  · simp [hg] at h
  · rcases hd : w.deref c.Owner with _ | e
    · simp [hg, siblings, ComponentBase.GetSibling, hd] at h
    · simp [hg, siblings, ComponentBase.GetSibling, hd] at h
      exact ⟨c, e, rfl, hd, h.symm⟩

theorem siblings_one_of_owner (w : World) (c : ComponentBase) (B : ComponentType)
    (h : (w.deref c.Owner).isSome = true) : ∃ rest, siblings c w [B] = some rest := by
  rcases hd : w.deref c.Owner with _ | e
  · simp [hd] at h
  · exact ⟨[e.GetComponent B], by simp [siblings, ComponentBase.GetSibling, hd]⟩

/-- C6: each tuple yielded by a pass over `IterateComponents<A,B>()` has a non-null
first element, the address of a live `A`; with `e` the entity owning that `A`, the
second element is null when `e` does not possess `B`, it is the `B` address stored
in `e` when `e` possesses `B` (non-null under the possession invariant of `e`), and
it is non-null only when `e` possesses `B`.  The pass returns, with one tuple per
live `A`, whenever the owner of every live `A` is an entity of the world.  Three
entities with `Position` on all and `Velocity` on the second only give 3 tuples
with `Velocity` null in tuples 1 and 3 and non-null in tuple 2. -/
theorem IterateComponents_secondary_null_iff_absent :
    (∀ (MAX_COMPONENTS_COUNT : Nat) (w w' : World) (A B : ComponentType)
      (ts : List ComponentTuple),
      w.IterateComponents MAX_COMPONENTS_COUNT A [B] = .ok ts w' → ∀ t ∈ ts,
        ∃ (pool : IterablePoolAllocator) (slot : Nat) (c : ComponentBase) (e : Entity)
          (second : Option Nat),
          w'.ComponentAllocators (GetComponentID A) = some pool ∧ pool.Get slot = some c ∧
          w'.deref c.Owner = some e ∧
          t = (some slot, [second]) ∧
          (e.HasComponent (GetComponentID B) = false → second = none) ∧
          (e.HasComponent (GetComponentID B) = true →
            second = e.Components (GetComponentID B)) ∧
          (e.HasComponent (GetComponentID B) = true → e.PossessionInvariant → second ≠ none) ∧
          (second ≠ none → e.HasComponent (GetComponentID B) = true)) ∧
    (∀ (MAX_COMPONENTS_COUNT : Nat) (w : World) (A B : ComponentType),
      GetComponentID A < MAX_COMPONENTS_COUNT →
      (∀ (pool : IterablePoolAllocator) (slot : Nat) (c : ComponentBase),
        w.ComponentAllocators (GetComponentID A) = some pool → pool.Get slot = some c →
          (w.deref c.Owner).isSome = true) →
      ∃ (ts : List ComponentTuple) (w' : World),
        w.IterateComponents MAX_COMPONENTS_COUNT A [B] = .ok ts w' ∧
          ts.map Prod.fst = (w.LiveInstances A).map some) ∧
    (Scenario.threePositions.IterateComponents 64 Scenario.Position [Scenario.Velocity]).value?
      = some [(some 0, [none]), (some 1, [some 0]), (some 2, [none])] := by
  refine ⟨?_, ?_, by decide⟩
  · intro MAX w w' A B ts h t ht
    obtain ⟨pool, hGA, hpass⟩ := World.IterateComponents_inv MAX w w' A [B] ts h
    obtain ⟨_, _, _, _, hp, _, _⟩ := World.GetComponentAllocator_ok MAX w w' A pool hGA
    obtain ⟨it, hstar⟩ := passFrom_mem w' pool [B] _ _ _ ts hpass t ht
    obtain ⟨c, e, hget, hown, ht⟩ := ComponentIterator.star_one_inv w' pool B it t hstar
    refine ⟨pool, it.primary_iter.idx, c, e, e.GetComponent B, hp, hget, hown, ht, ?_, ?_, ?_, ?_⟩
    · intro hno
      simp [Entity.GetComponent, hno]
    · intro hhas
      simp [Entity.GetComponent, hhas]
    · intro hhas hinv
      simp only [Entity.GetComponent, hhas, if_true]
      exact (hinv (GetComponentID B)).mp hhas
    · intro hne
      by_contra hno
      simp [Entity.GetComponent, hno] at hne
  · intro MAX w A B hA hown
    obtain ⟨pool, w1, hGA⟩ := World.GetComponentAllocator_total MAX w A hA
    obtain ⟨_, _, he1, _, _, _, hor⟩ := World.GetComponentAllocator_ok MAX w w1 A pool hGA
    obtain ⟨hl, _⟩ := World.LiveInstances_after_GetComponentAllocator MAX w w1 A pool hGA
    have hvalid : ∀ slot c, pool.Get slot = some c → ∃ rest, siblings c w1 [B] = some rest := by
      intro slot c hget
      apply siblings_one_of_owner
      rcases hor with h1 | ⟨_, h2⟩
      · have := hown pool slot c h1 hget
        simpa [World.deref, he1] using this
      · subst h2
        simp [IterablePoolAllocator.Get, IterablePoolAllocator.create, readCell_nil] at hget
    obtain ⟨ts, hts, hall⟩ := passFrom_spec w1 pool [B] hvalid pool.Cells 0 pool.Capacity
      (by simp) (by omega)
    refine ⟨ts, w1, World.IterateComponents_ok MAX w w1 A [B] pool ts hGA hts, ?_⟩
    rw [hl, IterablePoolAllocator.LiveSlots_eq_liveFrom]
    exact forall₂_map_fst _ _ _ hall

/-! ## Failed calls and world components: the code at concrete inputs -/

/-- C3, the code at two failing calls.  `AddComponent<Position>` on the id 999 that
names no entity of `oneEntity` is stopped, but by then the map holds an entry for
999 and slot 0 of the `Position` pool is live.  `AddComponent<Position>` on the
entity 101 of `onePosition`, which has a `Position`, is stopped, but by then slot 1
of the pool is live: the pool has two live instances where it had one. -/
theorem AddComponent_failed_call_changes_world :
    ((Scenario.oneEntity.AddComponent 64 Scenario.Position 999 1).failed = true ∧
      Scenario.oneEntity.IDToEntityMap 999 = none ∧
      (Scenario.oneEntity.AddComponent 64 Scenario.Position 999 1).world.IDToEntityMap 999
        = some none ∧
      Scenario.oneEntity.IsLiveSlot Scenario.Position 0 = false ∧
      (Scenario.oneEntity.AddComponent 64 Scenario.Position 999 1).world.IsLiveSlot
        Scenario.Position 0 = true) ∧
    ((Scenario.onePosition.AddComponent 64 Scenario.Position 101 2).failed = true ∧
      Scenario.onePosition.IsLiveSlot Scenario.Position 1 = false ∧
      (Scenario.onePosition.AddComponent 64 Scenario.Position 101 2).world.IsLiveSlot
        Scenario.Position 1 = true ∧
      Scenario.onePosition.LiveInstances Scenario.Position = [0] ∧
      (Scenario.onePosition.AddComponent 64 Scenario.Position 101 2).world.LiveInstances
        Scenario.Position = [0, 1]) := by
  refine ⟨⟨?_, ?_, ?_, ?_, ?_⟩, ?_, ?_, ?_, ?_, ?_⟩
  · decide
  · decide
  · decide
  · decide
  · decide
  · decide
  · decide
  · decide
  · rw [World.LiveInstances_eq_liveFrom]
    decide
  · rw [World.LiveInstances_eq_liveFrom]
    decide

/-- C4, the code at a type `Sky` whose component id (1) differs from its
world-component id (0).  In the empty world `AddWorldComponent<Sky>` succeeds and
`HasWorldComponent(GetWorldComponentID<Sky>())` is true, but the following
`RemoveWorldComponent<Sky>` is stopped by its assertion and `Sky` stays.  In a
world that holds `Fog` (world-component id 1) the `RemoveWorldComponent<Sky>`
returns, `Sky` stays and `Fog` is gone. -/
theorem RemoveWorldComponent_uses_component_id :
    (World.empty.HasWorldComponent (GetWorldComponentID Scenario.Sky) = false ∧
      (World.empty.AddWorldComponent Scenario.Sky 7).failed = false ∧
      (World.empty.AddWorldComponent Scenario.Sky 7).world.HasWorldComponent
        (GetWorldComponentID Scenario.Sky) = true ∧
      ((World.empty.AddWorldComponent Scenario.Sky 7).world.RemoveWorldComponent
        Scenario.Sky).failed = true ∧
      ((World.empty.AddWorldComponent Scenario.Sky 7).world.RemoveWorldComponent
        Scenario.Sky).world.HasWorldComponent (GetWorldComponentID Scenario.Sky) = true) ∧
    (Scenario.foggy.HasWorldComponent (GetWorldComponentID Scenario.Sky) = false ∧
      ((Scenario.foggy.AddWorldComponent Scenario.Sky 7).world.RemoveWorldComponent
        Scenario.Sky).failed = false ∧
      ((Scenario.foggy.AddWorldComponent Scenario.Sky 7).world.RemoveWorldComponent
        Scenario.Sky).world.HasWorldComponent (GetWorldComponentID Scenario.Sky) = true ∧
      (((Scenario.foggy.AddWorldComponent Scenario.Sky 7).world.RemoveWorldComponent
        Scenario.Sky).world.GetWorldComponent Scenario.Sky).value? = some (some ⟨none, 7⟩) ∧
      ((Scenario.foggy.AddWorldComponent Scenario.Sky 7).world.RemoveWorldComponent
        Scenario.Sky).world.HasWorldComponent (GetWorldComponentID Scenario.Fog) = false) := by
  refine ⟨⟨?_, ?_, ?_, ?_, ?_⟩, ?_, ?_, ?_, ?_, ?_⟩ <;> decide

/-! ## The theorems at concrete worlds -/

/-- C1 at the world `oneEntity`: the entity 101 has no `Position`, the pool is
created on this first use and `Alloc` returns slot 0. -/
theorem AddComponent_attaches_witness :
    ∃ w', Scenario.oneEntity.AddComponent 64 Scenario.Position 101 10 = .ok () w' ∧
      w'.IDToEntityMap 101 = some (some 0) ∧
      (∃ e', w'.EntitiesAllocator 0 = some e' ∧
        e'.HasComponent (GetComponentID Scenario.Position) = true) ∧
      w'.GetComponent Scenario.Position 101 = .ok (some 0) w' ∧
      (∃ pool' c, w'.ComponentAllocators (GetComponentID Scenario.Position) = some pool' ∧
        pool'.Get 0 = some c ∧ c.Owner = some 0) :=
  AddComponent_attaches 64 Scenario.oneEntity
    (Scenario.oneEntity.GetComponentAllocator 64 Scenario.Position).world Scenario.Position 101 10
    0 0 Entity.zeroed (IterablePoolAllocator.create MAX_ENTITY_COUNT)
    ⟨MAX_ENTITY_COUNT, [some ComponentBase.zeroed]⟩ (by decide) rfl rfl rfl rfl rfl

/-- C2 at the world `onePosition`: the entity 101 holds its `Position` in slot 0. -/
theorem RemoveComponent_detaches_witness :
    ∃ w', Scenario.onePosition.RemoveComponent 64 Scenario.Position 101 = .ok () w' ∧
      w'.IDToEntityMap 101 = some (some 0) ∧
      (∃ e', w'.EntitiesAllocator 0 = some e' ∧
        e'.HasComponent (GetComponentID Scenario.Position) = false) ∧
      w'.GetComponent Scenario.Position 101 = .ok none w' ∧
      (∃ pool, (Scenario.onePosition.ComponentAllocators (GetComponentID Scenario.Position)
            = some pool ∨
          (Scenario.onePosition.ComponentAllocators (GetComponentID Scenario.Position) = none ∧
            pool = IterablePoolAllocator.create MAX_ENTITY_COUNT)) ∧
        w'.ComponentAllocators (GetComponentID Scenario.Position) = some (pool.Free 0)) ∧
      w'.IsLiveSlot Scenario.Position 0 = false :=
  RemoveComponent_detaches 64 Scenario.onePosition Scenario.Position 101 0 0
    ((Entity.zeroed.setFlag 0 true).setComponent 0 (some 0)) (by decide) (by decide) rfl rfl rfl rfl

/-- C5 along `empty`, `SpawnEntity`, `AddComponent<Position>`,
`RemoveComponent<Position>`: the invariant holds in each of the worlds. -/
theorem possession_invariant_preserved_witness :
    Scenario.oneEntity.EntitiesInvariant ∧ Scenario.onePosition.EntitiesInvariant ∧
      (Scenario.onePosition.RemoveComponent 64 Scenario.Position 101).world.EntitiesInvariant :=
  have h0 : World.empty.EntitiesInvariant := fun _ _ h => by simp [World.empty] at h
  have h1 : Scenario.oneEntity.EntitiesInvariant :=
    (possession_invariant_preserved.2.1 World.empty Scenario.oneEntity 101 0 rfl h0).2
  have h2 : Scenario.onePosition.EntitiesInvariant :=
    possession_invariant_preserved.2.2.1 64 Scenario.oneEntity Scenario.onePosition
      Scenario.Position 101 10 rfl h1
  ⟨h1, h2, possession_invariant_preserved.2.2.2 64 Scenario.onePosition _ Scenario.Position 101
    rfl h2⟩

/-- C6 at the second tuple of the pass over `threePositions`: the `Position` in
slot 1 is owned by the entity in slot 1, which has a `Velocity` at address 0. -/
theorem IterateComponents_secondary_null_iff_absent_witness :
    ∃ (pool : IterablePoolAllocator) (slot : Nat) (c : ComponentBase) (e : Entity)
      (second : Option Nat),
      (Scenario.threePositions.IterateComponents 64 Scenario.Position
          [Scenario.Velocity]).world.ComponentAllocators (GetComponentID Scenario.Position)
        = some pool ∧ pool.Get slot = some c ∧
      (Scenario.threePositions.IterateComponents 64 Scenario.Position
          [Scenario.Velocity]).world.deref c.Owner = some e ∧
      ((some 1, [some 0]) : ComponentTuple) = (some slot, [second]) ∧
      (e.HasComponent (GetComponentID Scenario.Velocity) = false → second = none) ∧
      (e.HasComponent (GetComponentID Scenario.Velocity) = true →
        second = e.Components (GetComponentID Scenario.Velocity)) ∧
      (e.HasComponent (GetComponentID Scenario.Velocity) = true → e.PossessionInvariant →
        second ≠ none) ∧
      (second ≠ none → e.HasComponent (GetComponentID Scenario.Velocity) = true) :=
  IterateComponents_secondary_null_iff_absent.1 64 Scenario.threePositions
    (Scenario.threePositions.IterateComponents 64 Scenario.Position [Scenario.Velocity]).world
    Scenario.Position Scenario.Velocity [(some 0, [none]), (some 1, [some 0]), (some 2, [none])]
    rfl (some 1, [some 0]) (by simp)

/-- C7 at the world `threePositions`, which has three live `Position`s, attached to
its three entities. -/
theorem IterateComponents_one_tuple_per_live_instance_witness :
    (GetComponentID Scenario.Position < 64 ∧
      (Scenario.threePositions.LiveInstances Scenario.Position).length = 3 ∧
      ∃ (ts : List ComponentTuple) (w' : World),
        Scenario.threePositions.IterateComponents 64 Scenario.Position [] = .ok ts w' ∧
        ts.length = 3 ∧
        ts.map Prod.fst = (Scenario.threePositions.LiveInstances Scenario.Position).map some ∧
        (∀ t ∈ ts, t.1 ≠ none) ∧
        (ts.map Prod.fst).Nodup ∧
        List.Pairwise (· < ·) (Scenario.threePositions.LiveInstances Scenario.Position) ∧
        w'.LiveInstances Scenario.Position
          = Scenario.threePositions.LiveInstances Scenario.Position) ∧
    (Scenario.threePositions.PoolConsistent Scenario.Position ∧
      (Scenario.threePositions.Attached Scenario.Position).ncard = 3 ∧
      ∃ (ts : List ComponentTuple) (w' : World),
        Scenario.threePositions.IterateComponents 64 Scenario.Position [] = .ok ts w' ∧
        ts.length = 3 ∧ (∀ t ∈ ts, t.1 ≠ none) ∧ (ts.map Prod.fst).Nodup) :=
  have hN : (Scenario.threePositions.LiveInstances Scenario.Position).length = 3 := by
    rw [World.LiveInstances_eq_liveFrom]
    decide
  have h1 : Scenario.oneEntity.PoolConsistent Scenario.Position :=
    PoolConsistent_preserved.2.1 World.empty Scenario.oneEntity 101 0 Scenario.Position rfl
      (PoolConsistent_preserved.1 Scenario.Position)
  have h2 : Scenario.twoEntities.PoolConsistent Scenario.Position :=
    PoolConsistent_preserved.2.1 Scenario.oneEntity Scenario.twoEntities 102 1
      Scenario.Position rfl h1
  have h3 : Scenario.threeEntities.PoolConsistent Scenario.Position :=
    PoolConsistent_preserved.2.1 Scenario.twoEntities Scenario.threeEntities 103 2
      Scenario.Position rfl h2
  have h4 : Scenario.firstPosition.PoolConsistent Scenario.Position :=
    PoolConsistent_preserved.2.2.1 64 Scenario.threeEntities Scenario.firstPosition
      Scenario.Position Scenario.Position 101 10 rfl h3
  have h5 : Scenario.twoPositions.PoolConsistent Scenario.Position :=
    PoolConsistent_preserved.2.2.1 64 Scenario.firstPosition Scenario.twoPositions
      Scenario.Position Scenario.Position 102 20 rfl h4
  have h6 : Scenario.allPositions.PoolConsistent Scenario.Position :=
    PoolConsistent_preserved.2.2.1 64 Scenario.twoPositions Scenario.allPositions
      Scenario.Position Scenario.Position 103 30 rfl h5
  have hcons : Scenario.threePositions.PoolConsistent Scenario.Position :=
    PoolConsistent_preserved.2.2.1 64 Scenario.allPositions Scenario.threePositions
      Scenario.Velocity Scenario.Position 102 5 rfl h6
  have hA : (Scenario.threePositions.Attached Scenario.Position).ncard = 3 :=
    (World.ncard_Attached_eq _ _ hcons).trans hN
  ⟨⟨by decide, hN,
    IterateComponents_one_tuple_per_live_instance.1 64 Scenario.threePositions Scenario.Position 3
      (by decide) hN⟩,
   hcons, hA,
    IterateComponents_one_tuple_per_live_instance.2.1 64 Scenario.threePositions
      Scenario.Position 3 (by decide) hcons hA⟩

/-- C9 at the world `threePositions`: the `Position` of the entity 101 stays at
address 0 when a `Velocity` is added to the same entity. -/
theorem GetComponent_address_stable_witness :
    Scenario.threePositions.GetComponent Scenario.Position 101
        = .ok (some 0) Scenario.threePositions ∧
      (Scenario.threePositions.AddComponent 64 Scenario.Velocity 101 7).world.GetComponent
          Scenario.Position 101
        = .ok (some 0) (Scenario.threePositions.AddComponent 64 Scenario.Velocity 101 7).world :=
  ⟨rfl,
    (GetComponent_address_stable 64 Scenario.threePositions Scenario.Position Scenario.Velocity
      101 101 0 (some 0) rfl rfl (Or.inl (by decide)) (fun h => absurd rfl h)).1 7 _ rfl⟩

/-! ## Supporting facts -/

/-- The ids stay consistent along `SpawnEntity` and successful `AddComponent<T>` and
`RemoveComponent<T>` calls, starting from the empty world. -/
theorem IdsConsistent_preserved :
    World.empty.IdsConsistent ∧
    (∀ (w w' : World) (id : UniqueID) (slot : Nat),
      w.SpawnEntity id slot = .ok id w' → w.IdsConsistent → w'.IdsConsistent) ∧
    (∀ (MAX_COMPONENTS_COUNT : Nat) (w w' : World) (T : ComponentType) (entityId : UniqueID)
      (args : Nat), w.AddComponent MAX_COMPONENTS_COUNT T entityId args = .ok () w' →
        w.IdsConsistent → w'.IdsConsistent) ∧
    (∀ (MAX_COMPONENTS_COUNT : Nat) (w w' : World) (T : ComponentType) (entityId : UniqueID),
      w.RemoveComponent MAX_COMPONENTS_COUNT T entityId = .ok () w' →
        w.IdsConsistent → w'.IdsConsistent) := by
  refine ⟨⟨fun _ _ _ h => by simp [World.empty] at h, fun _ _ h => by simp [World.empty] at h⟩,
    ?_, ?_, ?_⟩
  · intro w w' id slot h hc
    unfold World.SpawnEntity at h
    split at h
    · cases h
    · rename_i hfree
      have hslot : (w.EntitiesAllocator slot).isSome = false := by
        rcases hs : (w.EntitiesAllocator slot).isSome with _ | _
        · rfl
        · exact absurd (Or.inr hs) hfree
      cases h
      have key : ∀ (k : UniqueID) (a : Nat), k ≠ id → w.IDToEntityMap k = some (some a) →
          a ≠ slot := by
        intro k a _ hk ha
        have := hc.2 k a hk
        rw [ha, hslot] at this
        cases this
      constructor
      · intro id1 id2 a h1 h2
        simp only [World.storeEntity] at h1 h2
        by_cases e1 : id1 = id <;> by_cases e2 : id2 = id
        · rw [e1, e2]
        · simp only [e1, e2, if_true, if_false, Option.some.injEq] at h1 h2
          exact absurd h1.symm (key id2 a e2 h2)
        · simp only [e1, e2, if_true, if_false, Option.some.injEq] at h1 h2
          exact absurd h2.symm (key id1 a e1 h1)
        · simp only [e1, e2, if_false] at h1 h2
          exact hc.1 id1 id2 a h1 h2
      · intro k a hk
        simp only [World.storeEntity] at hk ⊢
        by_cases e1 : k = id
        · simp only [e1, if_true, Option.some.injEq] at hk
          simp [hk]
        · simp only [e1, if_false] at hk
          by_cases e2 : a = slot
          · simp [e2]
          · simpa [e2] using hc.2 k a hk
  · intro MAX w w' T entityId args h hc
    obtain ⟨a, ptr, e, pool, pool1, w1, hmap, hent, hno, hGA, hAlloc⟩ :=
      World.AddComponent_inv MAX w w' T entityId args h
    have hw := Outcome.ok_inj
      ((World.AddComponent_ok MAX w w1 T entityId args a ptr e pool pool1 hmap hent hno hGA
        hAlloc).symm.trans h)
    obtain ⟨_, hm1, he1, _⟩ := World.GetComponentAllocator_ok MAX w w1 T pool hGA
    subst hw
    constructor
    · intro id1 id2 b h1 h2
      simp only [World.storeAllocator, World.storeEntity, hm1] at h1 h2
      exact hc.1 id1 id2 b h1 h2
    · intro k b hk
      simp only [World.storeAllocator, World.storeEntity, hm1, he1] at hk ⊢
      by_cases e2 : b = a
      · simp [e2]
      · simpa [e2] using hc.2 k b hk
  · intro MAX w w' T entityId h hc
    obtain ⟨a, slot, e, hmap, hent, hhas, haddr, hT⟩ :=
      World.RemoveComponent_inv MAX w w' T entityId h
    obtain ⟨pool, w3, hGA⟩ := World.GetComponentAllocator_total MAX
      (w.storeEntity a
        ((e.setFlag (GetComponentID T) false).setComponent (GetComponentID T) none)) T hT
    have hw := Outcome.ok_inj
      ((World.RemoveComponent_ok MAX w w3 T entityId a slot e pool hmap hent hhas haddr
        hGA).symm.trans h)
    obtain ⟨_, hm3, he3, _⟩ := World.GetComponentAllocator_ok MAX _ w3 T pool hGA
    subst hw
    constructor
    · intro id1 id2 b h1 h2
      simp only [World.storeAllocator, World.storeEntity, hm3] at h1 h2
      exact hc.1 id1 id2 b h1 h2
    · intro k b hk
      simp only [World.storeAllocator, World.storeEntity, hm3, he3] at hk ⊢
      by_cases e2 : b = a
      · simp [e2]
      · simpa [e2] using hc.2 k b hk

/-- For a type whose two ids coincide, the world-component life cycle works:
`AddWorldComponent<T>` stores the instance, `GetWorldComponent<T>()` returns it, and
the following `RemoveWorldComponent<T>()` removes it. -/
theorem WorldComponent_lifecycle_of_equal_ids (w : World) (T : ComponentType) (args : Nat)
    (hid : GetComponentID T = GetWorldComponentID T)
    (hno : w.HasWorldComponent (GetWorldComponentID T) = false) :
    ∃ w1 w2, w.AddWorldComponent T args = .ok () w1 ∧
      w1.HasWorldComponent (GetWorldComponentID T) = true ∧
      w1.GetWorldComponent T = .ok (some ⟨none, args⟩) w1 ∧
      w1.RemoveWorldComponent T = .ok () w2 ∧
      w2.HasWorldComponent (GetWorldComponentID T) = false ∧
      w2.GetWorldComponent T = .ok none w2 := by
  have h1 : w.AddWorldComponent T args = .ok ()
      { w with WorldComponents := fun k =>
          if k = GetWorldComponentID T then some ⟨none, args⟩ else w.WorldComponents k } := by
    simp [World.AddWorldComponent, hno]
  refine ⟨_, { w with WorldComponents := fun k =>
      if k = GetWorldComponentID T then none else
        if k = GetWorldComponentID T then some ⟨none, args⟩ else w.WorldComponents k },
    h1, ?_, ?_, ?_, ?_, ?_⟩
  · simp [World.HasWorldComponent]
  · simp [World.GetWorldComponent, World.HasWorldComponent]
  · simp [World.RemoveWorldComponent, World.HasWorldComponent, hid]
  · simp [World.HasWorldComponent]
  · simp [World.GetWorldComponent, World.HasWorldComponent]

/-! ## Assertions of `AddComponent` and `RemoveComponent`, and the round trip -/

theorem World.AddComponent_halted_of_has (MAX : Nat) (w w1 : World) (T : ComponentType)
    (entityId : UniqueID) (args a ptr : Nat) (e : Entity) (pool pool1 : IterablePoolAllocator)
    (hmap : w.IDToEntityMap entityId = some (some a))
    (hent : w.EntitiesAllocator a = some e)
    (hhas : e.HasComponent (GetComponentID T) = true)
    (hGA : w.GetComponentAllocator MAX T = .ok pool w1)
    (hAlloc : pool.Alloc = some (ptr, pool1)) :
    w.AddComponent MAX T entityId args = .halted .ComponentAlreadyExists
      (w1.storeAllocator (GetComponentID T) (pool1.Store ptr ⟨none, args⟩)) := by
  obtain ⟨_, hm1, he1, _, _, _, _⟩ := World.GetComponentAllocator_ok MAX w w1 T pool hGA
  have hidx : (w1.storeAllocator (GetComponentID T) (pool1.Store ptr ⟨none, args⟩)).index entityId
      = (some a, w1.storeAllocator (GetComponentID T) (pool1.Store ptr ⟨none, args⟩)) := by
    simp [World.index, World.storeAllocator, hm1, hmap]
  have hent1 : (w1.storeAllocator (GetComponentID T)
      (pool1.Store ptr ⟨none, args⟩)).EntitiesAllocator a = some e := by
    simp [World.storeAllocator, he1, hent]
  unfold World.AddComponent
  simp only [hGA, hAlloc, hidx, hent1, hhas]
  simp

theorem World.RemoveComponent_halted_of_not_has (MAX : Nat) (w : World) (T : ComponentType)
    (entityId : UniqueID) (a : Nat) (e : Entity)
    (hmap : w.IDToEntityMap entityId = some (some a))
    (hent : w.EntitiesAllocator a = some e)
    (hno : e.HasComponent (GetComponentID T) = false) :
    w.RemoveComponent MAX T entityId = .halted .ComponentDoesNotExist w := by
  have hidx : w.index entityId = (some a, w) := by simp [World.index, hmap]
  unfold World.RemoveComponent
  simp only [hidx, hent, hno]
  simp

/-- C11: for a live entity id whose entity satisfies the possession invariant, with a
free slot in the pool of `T`: when the entity possesses a `T`, `AddComponent<T>(id)`
is stopped by the assertion "a component of a given UniqueID already exists" and
`RemoveComponent<T>(id)` returns; when it does not, `AddComponent<T>(id)` returns
and `RemoveComponent<T>(id)` is stopped by the assertion "a component of a given
UniqueID does not exist". -/
theorem AddComponent_RemoveComponent_fail_iff (MAX_COMPONENTS_COUNT : Nat) (w w1 : World)
    (T : ComponentType) (entityId : UniqueID) (args a ptr : Nat) (e : Entity)
    (pool pool1 : IterablePoolAllocator)
    (hmap : w.IDToEntityMap entityId = some (some a))
    (hent : w.EntitiesAllocator a = some e)
    (hinv : e.PossessionInvariant)
    (hGA : w.GetComponentAllocator MAX_COMPONENTS_COUNT T = .ok pool w1)
    (hAlloc : pool.Alloc = some (ptr, pool1)) :
    (e.HasComponent (GetComponentID T) = true →
      (∃ w', w.AddComponent MAX_COMPONENTS_COUNT T entityId args
          = .halted .ComponentAlreadyExists w') ∧
      (∃ w', w.RemoveComponent MAX_COMPONENTS_COUNT T entityId = .ok () w')) ∧
    (e.HasComponent (GetComponentID T) = false →
      (∃ w', w.AddComponent MAX_COMPONENTS_COUNT T entityId args = .ok () w') ∧
      (∃ w', w.RemoveComponent MAX_COMPONENTS_COUNT T entityId
          = .halted .ComponentDoesNotExist w')) := by
  obtain ⟨hT, _⟩ := World.GetComponentAllocator_ok MAX_COMPONENTS_COUNT w w1 T pool hGA
  constructor
  · intro hhas
    refine ⟨⟨_, World.AddComponent_halted_of_has MAX_COMPONENTS_COUNT w w1 T entityId args a ptr e
      pool pool1 hmap hent hhas hGA hAlloc⟩, ?_⟩
    have hne : e.Components (GetComponentID T) ≠ none := (hinv (GetComponentID T)).mp hhas
    obtain ⟨slot, hslot⟩ := Option.ne_none_iff_exists'.mp hne
    obtain ⟨poolR, w3, hGA3⟩ := World.GetComponentAllocator_total MAX_COMPONENTS_COUNT
      (w.storeEntity a
        ((e.setFlag (GetComponentID T) false).setComponent (GetComponentID T) none)) T hT
    exact ⟨_, World.RemoveComponent_ok MAX_COMPONENTS_COUNT w w3 T entityId a slot e poolR hmap
      hent hhas hslot hGA3⟩
  · intro hno
    exact ⟨⟨_, World.AddComponent_ok MAX_COMPONENTS_COUNT w w1 T entityId args a ptr e pool pool1
      hmap hent hno hGA hAlloc⟩,
      ⟨_, World.RemoveComponent_halted_of_not_has MAX_COMPONENTS_COUNT w T entityId a e hmap hent
        hno⟩⟩



theorem firstDead_le_of_dead (cs : List (Option ComponentBase)) (i : Nat)
    (h : readCell cs i = none) : firstDead cs ≤ i := by
  induction cs generalizing i with
  | nil => simp [firstDead]
  | cons c cs ih =>
    cases c with
    | none => simp [firstDead]
    | some c =>
      cases i with
      | zero => simp [readCell] at h
      | succ i =>
        simp only [firstDead]
        have := ih i (by simpa [readCell] using h)
        omega

theorem IterablePoolAllocator.Alloc_of_dead (p : IterablePoolAllocator) (i : Nat)
    (hi : i < p.Capacity) (h : p.Get i = none) :
    ∃ j p1, p.Alloc = some (j, p1) := by
  have hr : readCell p.Cells i = none := by simpa [IterablePoolAllocator.Get, hi] using h
  have hle := firstDead_le_of_dead p.Cells i hr
  have hlt : firstDead p.Cells < p.Capacity := by omega
  exact ⟨firstDead p.Cells,
    { p with Cells := writeCell p.Cells (firstDead p.Cells) (some ComponentBase.zeroed) },
    by simp [IterablePoolAllocator.Alloc, hlt]⟩

theorem IterablePoolAllocator.Capacity_SetOwner (p : IterablePoolAllocator) (i : Nat)
    (o : Option Nat) : (p.SetOwner i o).Capacity = p.Capacity := by
  unfold IterablePoolAllocator.SetOwner
  split
  · rfl
  · exact IterablePoolAllocator.Capacity_Store _ _ _

theorem World.GetComponent_of_entity (w : World) (T : ComponentType) (entityId : UniqueID)
    (a : Nat) (e : Entity) (hvalid : entityId.IsValid = true)
    (hmap : w.IDToEntityMap entityId = some (some a))
    (hent : w.EntitiesAllocator a = some e) :
    w.GetComponent T entityId = .ok (e.GetComponent T) w := by
  simp [World.GetComponent, hvalid, World.find, World.deref, hmap, hent]

/-- What a successful `AddComponent<T>` leaves behind. -/
theorem World.AddComponent_result (MAX : Nat) (w w1 : World) (T : ComponentType)
    (entityId : UniqueID) (args a ptr : Nat) (e : Entity) (pool pool1 : IterablePoolAllocator)
    (hmap : w.IDToEntityMap entityId = some (some a))
    (hent : w.EntitiesAllocator a = some e)
    (hno : e.HasComponent (GetComponentID T) = false)
    (hGA : w.GetComponentAllocator MAX T = .ok pool w1)
    (hAlloc : pool.Alloc = some (ptr, pool1)) :
    ∃ (w' : World) (e' : Entity) (pool' : IterablePoolAllocator),
      w.AddComponent MAX T entityId args = .ok () w' ∧
      w'.IDToEntityMap entityId = some (some a) ∧
      w'.EntitiesAllocator a = some e' ∧
      e'.HasComponent (GetComponentID T) = true ∧
      e'.Components (GetComponentID T) = some ptr ∧
      w'.ComponentAllocators (GetComponentID T) = some pool' ∧
      pool'.Get ptr = some ⟨some a, args⟩ ∧
      pool'.Capacity = pool.Capacity ∧ ptr < pool.Capacity := by
  obtain ⟨_, hm1, _⟩ := World.GetComponentAllocator_ok MAX w w1 T pool hGA
  obtain ⟨hlt, _, hcap, _⟩ := IterablePoolAllocator.Alloc_spec pool pool1 ptr hAlloc
  refine ⟨_, (e.setFlag (GetComponentID T) true).setComponent (GetComponentID T) (some ptr), _,
    World.AddComponent_ok MAX w w1 T entityId args a ptr e pool pool1 hmap hent hno hGA hAlloc,
    ?_, if_pos rfl, if_pos rfl, if_pos rfl, if_pos rfl, ?_, ?_, hlt⟩
  · simp [World.storeAllocator, World.storeEntity, hm1, hmap]
  · simp [IterablePoolAllocator.Get_constructed pool pool1 ptr args (some a) hAlloc]
  · rw [IterablePoolAllocator.Capacity_SetOwner, IterablePoolAllocator.Capacity_Store, hcap]

/-- What a successful `RemoveComponent<T>` leaves behind, when the pool of `T` exists. -/
theorem World.RemoveComponent_result (MAX : Nat) (w : World) (T : ComponentType)
    (entityId : UniqueID) (a slot : Nat) (e : Entity) (pool : IterablePoolAllocator)
    (hT : GetComponentID T < MAX)
    (hmap : w.IDToEntityMap entityId = some (some a))
    (hent : w.EntitiesAllocator a = some e)
    (hhas : e.HasComponent (GetComponentID T) = true)
    (haddr : e.Components (GetComponentID T) = some slot)
    (hpool : w.ComponentAllocators (GetComponentID T) = some pool) :
    ∃ (w' : World) (e' : Entity),
      w.RemoveComponent MAX T entityId = .ok () w' ∧
      w'.IDToEntityMap entityId = some (some a) ∧
      w'.EntitiesAllocator a = some e' ∧
      e'.HasComponent (GetComponentID T) = false ∧
      w'.ComponentAllocators (GetComponentID T) = some (pool.Free slot) := by
  have hGA : (w.storeEntity a
      ((e.setFlag (GetComponentID T) false).setComponent (GetComponentID T) none)
      ).GetComponentAllocator MAX T = .ok pool (w.storeEntity a
      ((e.setFlag (GetComponentID T) false).setComponent (GetComponentID T) none)) := by
    simp [World.GetComponentAllocator, hT, World.storeEntity, hpool]
  refine ⟨_, (e.setFlag (GetComponentID T) false).setComponent (GetComponentID T) none,
    World.RemoveComponent_ok MAX w _ T entityId a slot e pool hmap hent hhas haddr hGA,
    ?_, if_pos rfl, if_pos rfl, if_pos rfl⟩
  simp [World.storeAllocator, World.storeEntity, hmap]

/-- C12: for a live entity id whose entity has no `T`, with a free slot in the pool of
`T`: `AddComponent<T>(id)`, `RemoveComponent<T>(id)`, `AddComponent<T>(id)` return
one after the other (the pool has a free slot for the second `Alloc`, which returns
`ptr2`); at the end `HasComponent(id_of<T>())` is true, the address stored and
returned by `World::GetComponent<T>(id)` is `ptr2`, it differs from the address
after the first add exactly when `ptr2` differs from the first slot, and the
component in slot `ptr2` carries the arguments of the second add. -/
theorem AddComponent_RemoveComponent_AddComponent_round_trip (MAX_COMPONENTS_COUNT : Nat)
    (w w1 : World) (T : ComponentType) (entityId : UniqueID) (args1 args2 a ptr : Nat)
    (e : Entity) (pool pool1 : IterablePoolAllocator)
    (hvalid : entityId.IsValid = true)
    (hmap : w.IDToEntityMap entityId = some (some a))
    (hent : w.EntitiesAllocator a = some e)
    (hno : e.HasComponent (GetComponentID T) = false)
    (hGA : w.GetComponentAllocator MAX_COMPONENTS_COUNT T = .ok pool w1)
    (hAlloc : pool.Alloc = some (ptr, pool1)) :
    ∃ (wA wR wB : World) (poolR poolR1 : IterablePoolAllocator) (ptr2 : Nat),
      w.AddComponent MAX_COMPONENTS_COUNT T entityId args1 = .ok () wA ∧
      wA.GetComponent T entityId = .ok (some ptr) wA ∧
      wA.RemoveComponent MAX_COMPONENTS_COUNT T entityId = .ok () wR ∧
      wR.GetComponentAllocator MAX_COMPONENTS_COUNT T = .ok poolR wR ∧
      poolR.Alloc = some (ptr2, poolR1) ∧
      wR.AddComponent MAX_COMPONENTS_COUNT T entityId args2 = .ok () wB ∧
      (∃ e', wB.EntitiesAllocator a = some e' ∧
        e'.HasComponent (GetComponentID T) = true ∧
        e'.Components (GetComponentID T) = some ptr2) ∧
      wB.GetComponent T entityId = .ok (some ptr2) wB ∧
      ((wB.GetComponent T entityId).value? ≠ (wA.GetComponent T entityId).value? ↔ ptr2 ≠ ptr) ∧
      wB.PoolGet T ptr2 = some ⟨some a, args2⟩ := by
  obtain ⟨hT, _⟩ := World.GetComponentAllocator_ok MAX_COMPONENTS_COUNT w w1 T pool hGA
  obtain ⟨wA, eA, poolA, hA, hmA, heA, hhasA, hcA, hpA, _, hcapA, hlt⟩ :=
    World.AddComponent_result MAX_COMPONENTS_COUNT w w1 T entityId args1 a ptr e pool pool1
      hmap hent hno hGA hAlloc
  obtain ⟨wR, eR, hR, hmR, heR, hnoR, hpR⟩ :=
    World.RemoveComponent_result MAX_COMPONENTS_COUNT wA T entityId a ptr eA poolA hT hmA heA
      hhasA hcA hpA
  have hGAR : wR.GetComponentAllocator MAX_COMPONENTS_COUNT T = .ok (poolA.Free ptr) wR := by
    simp [World.GetComponentAllocator, hT, hpR]
  obtain ⟨ptr2, poolR1, hAlloc2⟩ := IterablePoolAllocator.Alloc_of_dead (poolA.Free ptr) ptr
    (by simpa [IterablePoolAllocator.Free, hcapA] using hlt)
    (by simp [IterablePoolAllocator.Get_Free])
  obtain ⟨wB, eB, poolB, hB, hmB, heB, hhasB, hcB, hpB, hgB, _, _⟩ :=
    World.AddComponent_result MAX_COMPONENTS_COUNT wR wR T entityId args2 a ptr2 eR
      (poolA.Free ptr) poolR1 hmR heR hnoR hGAR hAlloc2
  have hgetA : wA.GetComponent T entityId = .ok (some ptr) wA := by
    rw [World.GetComponent_of_entity wA T entityId a eA hvalid hmA heA]
    simp [Entity.GetComponent, hhasA, hcA]
  have hgetB : wB.GetComponent T entityId = .ok (some ptr2) wB := by
    rw [World.GetComponent_of_entity wB T entityId a eB hvalid hmB heB]
    simp [Entity.GetComponent, hhasB, hcB]
  refine ⟨wA, wR, wB, poolA.Free ptr, poolR1, ptr2, hA, hgetA, hR, hGAR, hAlloc2, hB,
    ⟨eB, heB, hhasB, hcB⟩, hgetB, ?_, ?_⟩
  · rw [hgetA, hgetB]
    simp [Outcome.value?]
  · simp [World.PoolGet, hpB, hgB]

/-! ## The debug view -/

theorem countAttachments_eq (ts : List eRenderingTargetType) (n : Nat)
    (h : n + ts.count .TEXTURE_2D < UINT32_RANGE) :
    countAttachments ts n = n + ts.count .TEXTURE_2D := by
  induction ts generalizing n with
  | nil => simp [countAttachments]
  | cons t ts ih =>
    by_cases ht : t = .TEXTURE_2D
    · subst ht
      simp only [List.count_cons_self] at h
      have hn : (n + 1) % UINT32_RANGE = n + 1 := Nat.mod_eq_of_lt (by omega)
      simp only [countAttachments, if_true, hn, List.count_cons_self]
      rw [ih (n + 1) (by omega)]
      omega
    · have hc : (t :: ts).count .TEXTURE_2D = ts.count .TEXTURE_2D :=
        List.count_cons_of_ne (fun h => ht h.symm) ts
      rw [hc] at h
      simp only [countAttachments, ht, if_false, hc]
      exact ih n h

theorem blitAttachments_length (screenSize : ScreenSize) (d divH : Nat)
    (ts : List eRenderingTargetType) (n : Nat) :
    (blitAttachments screenSize d divH ts n).length = ts.count .TEXTURE_2D := by
  induction ts generalizing n with
  | nil => simp [blitAttachments]
  | cons t ts ih =>
    by_cases ht : t = .TEXTURE_2D
    · subst ht
      simp [blitAttachments, ih]
    · have hc : (t :: ts).count .TEXTURE_2D = ts.count .TEXTURE_2D :=
        List.count_cons_of_ne (fun h => ht h.symm) ts
      simp [blitAttachments, ht, ih, hc]

theorem blitAttachments_get (screenSize : ScreenSize) (d divH : Nat)
    (ts : List eRenderingTargetType) (n c : Nat)
    (hc : c < ts.count .TEXTURE_2D)
    (hn : n + ts.count .TEXTURE_2D < UINT32_RANGE)
    (hmul : (n + ts.count .TEXTURE_2D) * divH < UINT32_RANGE) :
    ∃ b, (blitAttachments screenSize d divH ts n)[c]? = some b ∧ b.attachment = n + c ∧
      b.dstY0 = (n + c) * divH ∧ b.dstY1 = (n + c + 1) * divH := by
  induction ts generalizing n c with
  | nil => simp at hc
  | cons t ts ih =>
    by_cases ht : t = .TEXTURE_2D
    · subst ht
      simp only [List.count_cons_self] at hc hn hmul
      have hn1 : (n + 1) % UINT32_RANGE = n + 1 := Nat.mod_eq_of_lt (by omega)
      have hle1 : (n + 1) * divH ≤ (n + (ts.count .TEXTURE_2D + 1)) * divH :=
        Nat.mul_le_mul_right _ (by omega)
      have hle0 : n * divH ≤ (n + 1) * divH := Nat.mul_le_mul_right _ (by omega)
      cases c with
      | zero =>
        have hget : (blitAttachments screenSize d divH (.TEXTURE_2D :: ts) n)[0]? =
            some { attachment := n, srcX0 := 0, srcY0 := 0, srcX1 := screenSize.Width,
                   srcY1 := screenSize.Height, dstX0 := 0, dstY0 := n * divH % UINT32_RANGE,
                   dstX1 := screenSize.Width / d,
                   dstY1 := (n + 1) % UINT32_RANGE * divH % UINT32_RANGE } := by
          simp [blitAttachments]
        refine ⟨_, hget, rfl, ?_, ?_⟩
        · show n * divH % UINT32_RANGE = (n + 0) * divH
          rw [Nat.add_zero]
          exact Nat.mod_eq_of_lt (by omega)
        · show (n + 1) % UINT32_RANGE * divH % UINT32_RANGE = (n + 0 + 1) * divH
          rw [Nat.add_zero, hn1]
          exact Nat.mod_eq_of_lt (by omega)
      | succ c =>
        obtain ⟨b, hb, ha, h0, h1⟩ := ih (n + 1) c (by omega) (by omega)
          (by rw [show n + 1 + ts.count .TEXTURE_2D = n + (ts.count .TEXTURE_2D + 1) by omega]
              exact hmul)
        refine ⟨b, by simpa [blitAttachments, hn1] using hb, by omega, ?_, ?_⟩
        · rw [h0, show n + 1 + c = n + (c + 1) by omega]
        · rw [h1, show n + 1 + c + 1 = n + (c + 1) + 1 by omega]
    · have hcnt : (t :: ts).count .TEXTURE_2D = ts.count .TEXTURE_2D :=
        List.count_cons_of_ne (fun h => ht h.symm) ts
      rw [hcnt] at hc hn hmul
      obtain ⟨b, hb, hrest⟩ := ih n c hc hn hmul
      exact ⟨b, by simpa [blitAttachments, ht] using hb, hrest⟩



/-- C14: in `RenderingPassBase::DebugDraw`, for a screen height `H` and a number `k`
of `TEXTURE_2D` outputs, both `uint32_t` values: with `k = 0` nothing is drawn; with
`k >= 1` (and a frame buffer) the divisor `max(3, k)` is not zero, `k` blits are
issued, and the blit of attachment index `c < k` has the destination band from
`c * (H / max(3, k))` to `(c + 1) * (H / max(3, k))`, computed without overflow,
inside `[0, H]`, and ending where the band of every later index begins or
before. -/
theorem DebugDraw_bands_within_screen (FBO : Nat) (outputs : List eRenderingTargetType)
    (screenSize : ScreenSize) (k : Nat)
    (hk : outputs.count .TEXTURE_2D = k) (hk32 : k < UINT32_RANGE)
    (hH : screenSize.Height < UINT32_RANGE) :
    (k = 0 → DebugDraw FBO outputs screenSize = []) ∧
    (1 ≤ k → 0 < FBO →
      max 3 k ≠ 0 ∧
      (DebugDraw FBO outputs screenSize).length = k ∧
      ∀ c, c < k →
        ∃ b, (DebugDraw FBO outputs screenSize)[c]? = some b ∧
          b.attachment = c ∧
          b.dstY0 = c * (screenSize.Height / max 3 k) ∧
          b.dstY1 = (c + 1) * (screenSize.Height / max 3 k) ∧
          b.dstY0 ≤ b.dstY1 ∧ b.dstY1 ≤ screenSize.Height ∧
          (c + 1) * (screenSize.Height / max 3 k) < UINT32_RANGE ∧
          ∀ c' b', c < c' → (DebugDraw FBO outputs screenSize)[c']? = some b' →
            b.dstY1 ≤ b'.dstY0) := by
  have hcount : countAttachments outputs 0 = k := by
    rw [countAttachments_eq outputs 0 (by omega), hk]
    omega
  constructor
  · intro h0
    unfold DebugDraw
    split
    · simp [hcount, h0]
    · rfl
  · intro h1 hFBO
    have hd : 3 ≤ max 3 k := le_max_left 3 k
    have hkd : k ≤ max 3 k := le_max_right 3 k
    have hdiv : max 3 k * (screenSize.Height / max 3 k) ≤ screenSize.Height :=
      Nat.mul_div_le _ _
    have hkH : k * (screenSize.Height / max 3 k) ≤ screenSize.Height :=
      le_trans (Nat.mul_le_mul_right _ hkd) hdiv
    have hrun : DebugDraw FBO outputs screenSize =
        blitAttachments screenSize (max 3 k) (screenSize.Height / max 3 k) outputs 0 := by
      unfold DebugDraw
      have hk0 : k ≠ 0 := by omega
      simp [hFBO, hcount, hk0]
    have hget : ∀ c, c < k → ∃ b, (DebugDraw FBO outputs screenSize)[c]? = some b ∧
        b.attachment = c ∧ b.dstY0 = c * (screenSize.Height / max 3 k) ∧
        b.dstY1 = (c + 1) * (screenSize.Height / max 3 k) := by
      intro c hc
      obtain ⟨b, hb, ha, h0, h1⟩ := blitAttachments_get screenSize (max 3 k)
        (screenSize.Height / max 3 k) outputs 0 c (by omega) (by omega)
        (by rw [hk, Nat.zero_add]; omega)
      rw [hrun]
      exact ⟨b, hb, by omega, by simpa using h0, by simpa using h1⟩
    have hlen : (DebugDraw FBO outputs screenSize).length = k := by
      rw [hrun, blitAttachments_length, hk]
    refine ⟨by omega, hlen, ?_⟩
    intro c hc
    obtain ⟨b, hb, ha, h0, h1⟩ := hget c hc
    have hup : (c + 1) * (screenSize.Height / max 3 k) ≤ k * (screenSize.Height / max 3 k) :=
      Nat.mul_le_mul_right _ (by omega)
    refine ⟨b, hb, ha, h0, h1, ?_, ?_, ?_, ?_⟩
    · rw [h0, h1]
      exact Nat.mul_le_mul_right _ (by omega)
    · rw [h1]
      omega
    · omega
    · intro c' b' hcc hb'
      have hc' : c' < k := by
        have := List.getElem?_eq_some.mp hb'
        obtain ⟨hlt, _⟩ := this
        omega
      obtain ⟨b2, hb2, _, h20, _⟩ := hget c' hc'
      rw [hb2] at hb'
      have hbb : b2 = b' := Option.some.inj hb'
      subst hbb
      rw [h1, h20]
      exact Nat.mul_le_mul_right _ (by omega)

/-! ## The resource cache -/

namespace ResourceManager

theorem Load_of_cached (m : ResourceManager) (path : String)
    (resource count : Nat) (construct : Construction) (h : m.Cached path resource count) :
    ∃ m', m.Load path construct = .returned (some resource) m' ∧
      m'.Cached path resource (count + 1) := by
  obtain ⟨h1, h2⟩ := h
  refine ⟨m.storeObject resource (ResourceBase.AddRef ⟨path, count⟩), ?_, ?_, ?_⟩
  · simp [Load, h1, h2]
  · simpa [storeObject] using h1
  · simp [storeObject, ResourceBase.AddRef]

theorem Load_of_vacant (m : ResourceManager) (path : String)
    (resource : Nat) (h : m.Resources path = none) :
    ∃ m', m.Load path (.built resource) = .returned (some resource) m' ∧
      m'.Cached path resource 1 := by
  refine ⟨_, by simp [Load, h]; rfl, ?_, ?_⟩
  · simp [storeObject, Insert]
  · simp [storeObject, Insert, ResourceBase.AddRef, ResourceBase.constructed]

theorem LoadEach_of_cached (path : String) (resource : Nat)
    (cs : List Construction) (m : ResourceManager) (count : Nat)
    (h : m.Cached path resource count) :
    ∃ m', LoadEach path cs m = some (List.replicate cs.length (some resource), m') ∧
      m'.Cached path resource (count + cs.length) := by
  induction cs generalizing m count with
  | nil => exact ⟨m, rfl, h⟩
  | cons c cs ih =>
    obtain ⟨m1, hl, hc1⟩ := Load_of_cached m path resource count c h
    obtain ⟨m2, hl2, hc2⟩ := ih m1 (count + 1) hc1
    refine ⟨m2, ?_, ?_⟩
    · simp [LoadEach, hl, hl2, List.replicate_succ]
    · have : count + (c :: cs).length = count + 1 + cs.length := by
        simp only [List.length_cons]
        omega
      rw [this]
      exact hc2

theorem Release_of_cached_more (m : ResourceManager) (path : String)
    (resource count : Nat) (h : m.Cached path resource (count + 2)) :
    ∃ m', m.Release resource = .returned () m' ∧
      m'.Cached path resource (count + 1) := by
  obtain ⟨h1, h2⟩ := h
  refine ⟨m.storeObject resource ⟨path, count + 1⟩, ?_, ?_, ?_⟩
  · simp [Release, h2, ResourceBase.RemoveRef]
  · simpa [storeObject] using h1
  · simp [storeObject]

theorem Release_of_cached_last (m : ResourceManager) (path : String)
    (resource : Nat) (h : m.Cached path resource 1) :
    ∃ m', m.Release resource = .returned () m' ∧
      m'.Resources path = none ∧ m'.Objects resource = none := by
  obtain ⟨h1, h2⟩ := h
  have hres : (m.storeObject resource ⟨path, 0⟩).Resources path = some resource := by
    simpa [storeObject] using h1
  refine ⟨(m.storeObject resource ⟨path, 0⟩).Remove path, ?_, ?_, ?_⟩
  · simp [Release, h2, ResourceBase.RemoveRef, ResourceBase.GetPath]
  · simp [Remove, hres]
  · simp [Remove, hres]

theorem ReleaseTimes_of_cached (path : String) (resource : Nat)
    (k : Nat) (m : ResourceManager) (count : Nat)
    (h : m.Cached path resource (count + k + 1)) :
    ∃ m', ReleaseTimes resource k m = some m' ∧
      m'.Cached path resource (count + 1) := by
  induction k generalizing m with
  | zero => exact ⟨m, rfl, h⟩
  | succ k ih =>
    obtain ⟨m1, hr, hc1⟩ := Release_of_cached_more m path resource (count + k)
      (by simpa [Nat.add_assoc] using h)
    obtain ⟨m2, hr2, hc2⟩ := ih m1 hc1
    exact ⟨m2, by simp [ReleaseTimes, hr, hr2], hc2⟩

theorem ReleaseTimes_succ_last (resource : Nat) (k : Nat)
    (m m1 : ResourceManager) (h : ReleaseTimes resource k m = some m1) :
    ReleaseTimes resource (k + 1) m =
      match m1.Release resource with
      | .stopped _ _ => none
      | .returned _ m2 => some m2 := by
  induction k generalizing m with
  | zero =>
    simp only [ReleaseTimes, Option.some.injEq] at h
    subst h
    rw [ReleaseTimes]
    cases m.Release resource <;> rfl
  | succ k ih =>
    rw [ReleaseTimes] at h
    rw [ReleaseTimes]
    cases hr : m.Release resource with
    | stopped f m' => simp [hr] at h
    | returned v m' =>
      simp only [hr] at h
      exact ih m' h

end ResourceManager

/-- C13: for a path and `n >= 1`, `n` successful calls `Load(path)` that construct
the resource (the path has no entry before the first call, which builds it; whatever
the constructor would do in the later calls, it is not run) construct it once,
return the same handle each time and raise the reference count by one per call, to
`n`; after `k < n` calls of `Release` the resource is still in the cache, with count
`n - k`, and the `n`-th `Release` removes it from the cache and frees it.  A `Load`
whose construction fails, with `ResourceLoadFailedException` or with another
`std::exception`, returns null and leaves the cache as it was, without an entry for
the path. -/
theorem Load_Release_reference_counting (m : ResourceManager)
    (path : String) (resource n : Nat) (cs : List Construction)
    (hvacant : m.Resources path = none) (hn : cs.length + 1 = n) :
    (∃ mL, ResourceManager.LoadEach path (.built resource :: cs) m
        = some (List.replicate n (some resource), mL) ∧
      mL.Cached path resource n ∧
      (∀ j, j < n → ∃ mJ, ResourceManager.LoadEach path ((.built resource :: cs).take (j + 1)) m
          = some (List.replicate (j + 1) (some resource), mJ) ∧
        mJ.Cached path resource (j + 1)) ∧
      (∀ k, k < n → ∃ mK, ResourceManager.ReleaseTimes resource k mL = some mK ∧
        mK.Cached path resource (n - k)) ∧
      (∃ mN, ResourceManager.ReleaseTimes resource n mL = some mN ∧
        mN.Resources path = none ∧ mN.Objects resource = none)) ∧
    (m.Load path .ResourceLoadFailedException = .returned none m ∧
      m.Load path .exception = .returned none m ∧
      (m.Load path .ResourceLoadFailedException).cache.Resources path = none ∧
      (m.Load path .exception).cache.Resources path = none) := by
  have hfail1 : m.Load path .ResourceLoadFailedException = .returned none m := by
    simp [ResourceManager.Load, hvacant]
  have hfail2 : m.Load path .exception = .returned none m := by
    simp [ResourceManager.Load, hvacant]
  refine ⟨?_, hfail1, hfail2, by rw [hfail1]; exact hvacant, by rw [hfail2]; exact hvacant⟩
  obtain ⟨m1, hl1, hc1⟩ := ResourceManager.Load_of_vacant m path resource hvacant
  have hloads : ∀ (ds : List Construction), ∃ mD,
      ResourceManager.LoadEach path (.built resource :: ds) m
        = some (List.replicate (ds.length + 1) (some resource), mD) ∧
      mD.Cached path resource (ds.length + 1) := by
    intro ds
    obtain ⟨mD, hlD, hcD⟩ := ResourceManager.LoadEach_of_cached path resource ds m1 1 hc1
    refine ⟨mD, ?_, ?_⟩
    · simp [ResourceManager.LoadEach, hl1, hlD, List.replicate_succ]
    · rw [Nat.add_comm]
      exact hcD
  obtain ⟨mL, hlL, hcL⟩ := hloads cs
  rw [hn] at hlL hcL
  have hrel : ∀ k, k < n → ∃ mK, ResourceManager.ReleaseTimes resource k mL
      = some mK ∧ mK.Cached path resource (n - k) := by
    intro k hk
    obtain ⟨mK, hr, hc⟩ := ResourceManager.ReleaseTimes_of_cached path resource k mL
      (n - k - 1) (by rw [show n - k - 1 + k + 1 = n by omega]; exact hcL)
    exact ⟨mK, hr, by rw [show n - k = n - k - 1 + 1 by omega]; exact hc⟩
  refine ⟨mL, hlL, hcL, ?_, hrel, ?_⟩
  · intro j hj
    obtain ⟨mJ, hlJ, hcJ⟩ := hloads (cs.take j)
    have hlen : (cs.take j).length = j := by
      rw [List.length_take]
      omega
    rw [hlen] at hlJ hcJ
    exact ⟨mJ, by simpa [List.take_succ_cons] using hlJ, hcJ⟩
  · obtain ⟨mK, hr, hc⟩ := hrel (n - 1) (by omega)
    rw [show n - (n - 1) = 1 by omega] at hc
    obtain ⟨mN, hrN, h1, h2⟩ :=
      ResourceManager.Release_of_cached_last mK path resource hc
    refine ⟨mN, ?_, h1, h2⟩
    have := ResourceManager.ReleaseTimes_succ_last resource (n - 1) mL mK hr
    rw [show n - 1 + 1 = n by omega] at this
    rw [this, hrN]

/-- C13 at the empty cache: three `Load`s of `skyTexture`, the first building the
resource at address 7 (the constructor would fail in the other two, and is not
run), then three `Release`s; and a `Load` whose construction fails. -/
theorem Load_Release_reference_counting_witness :
    ResourceManager.empty.Resources Scenario.skyTexture = none ∧
    (∃ mL, ResourceManager.LoadEach Scenario.skyTexture
        [.built 7, .exception, .ResourceLoadFailedException] ResourceManager.empty
        = some ([some 7, some 7, some 7], mL) ∧
      mL.Cached Scenario.skyTexture 7 3 ∧
      (∃ mN, ResourceManager.ReleaseTimes 7 3 mL = some mN ∧
        mN.Resources Scenario.skyTexture = none ∧ mN.Objects 7 = none)) ∧
    ResourceManager.empty.Load Scenario.skyTexture .exception
      = .returned none ResourceManager.empty :=
  have h := Load_Release_reference_counting ResourceManager.empty Scenario.skyTexture 7 3
    [.exception, .ResourceLoadFailedException] rfl rfl
  ⟨rfl, h.1.elim (fun mL hL => ⟨mL, hL.1, hL.2.1, hL.2.2.2.2⟩), h.2.2.1⟩

/-! ## The round trip, the resource cache and the debug view at concrete inputs -/

/-- C11 at the entity 101: in `onePosition` it has a `Position`, in `oneEntity` it
has none. -/
theorem AddComponent_RemoveComponent_fail_iff_witness :
    ((∃ w', Scenario.onePosition.AddComponent 64 Scenario.Position 101 2
        = .halted .ComponentAlreadyExists w') ∧
      (∃ w', Scenario.onePosition.RemoveComponent 64 Scenario.Position 101 = .ok () w')) ∧
    ((∃ w', Scenario.oneEntity.AddComponent 64 Scenario.Position 101 2 = .ok () w') ∧
      (∃ w', Scenario.oneEntity.RemoveComponent 64 Scenario.Position 101
        = .halted .ComponentDoesNotExist w')) :=
  have hz : Entity.zeroed.PossessionInvariant := fun i => by simp [Entity.zeroed]
  ⟨(AddComponent_RemoveComponent_fail_iff 64 Scenario.onePosition Scenario.onePosition
      Scenario.Position 101 2 0 1 ((Entity.zeroed.setFlag 0 true).setComponent 0 (some 0))
      ⟨MAX_ENTITY_COUNT, [some ⟨some 0, 10⟩]⟩
      ⟨MAX_ENTITY_COUNT, [some ⟨some 0, 10⟩, some ComponentBase.zeroed]⟩
      rfl rfl (Entity.PossessionInvariant_attach Entity.zeroed 0 0 hz) rfl rfl).1 rfl,
   (AddComponent_RemoveComponent_fail_iff 64 Scenario.oneEntity
      (Scenario.oneEntity.GetComponentAllocator 64 Scenario.Position).world
      Scenario.Position 101 2 0 0 Entity.zeroed (IterablePoolAllocator.create MAX_ENTITY_COUNT)
      ⟨MAX_ENTITY_COUNT, [some ComponentBase.zeroed]⟩ rfl rfl hz rfl rfl).2 rfl⟩

/-- C12 at the entity 101 of `oneEntity`: both adds get slot 0. -/
theorem AddComponent_RemoveComponent_AddComponent_round_trip_witness :
    ∃ (wA wR wB : World) (poolR poolR1 : IterablePoolAllocator) (ptr2 : Nat),
      Scenario.oneEntity.AddComponent 64 Scenario.Position 101 10 = .ok () wA ∧
      wA.GetComponent Scenario.Position 101 = .ok (some 0) wA ∧
      wA.RemoveComponent 64 Scenario.Position 101 = .ok () wR ∧
      wR.GetComponentAllocator 64 Scenario.Position = .ok poolR wR ∧
      poolR.Alloc = some (ptr2, poolR1) ∧
      wR.AddComponent 64 Scenario.Position 101 20 = .ok () wB ∧
      (∃ e', wB.EntitiesAllocator 0 = some e' ∧
        e'.HasComponent (GetComponentID Scenario.Position) = true ∧
        e'.Components (GetComponentID Scenario.Position) = some ptr2) ∧
      wB.GetComponent Scenario.Position 101 = .ok (some ptr2) wB ∧
      ((wB.GetComponent Scenario.Position 101).value?
          ≠ (wA.GetComponent Scenario.Position 101).value? ↔ ptr2 ≠ 0) ∧
      wB.PoolGet Scenario.Position ptr2 = some ⟨some 0, 20⟩ :=
  AddComponent_RemoveComponent_AddComponent_round_trip 64 Scenario.oneEntity
    (Scenario.oneEntity.GetComponentAllocator 64 Scenario.Position).world Scenario.Position 101
    10 20 0 0 Entity.zeroed (IterablePoolAllocator.create MAX_ENTITY_COUNT)
    ⟨MAX_ENTITY_COUNT, [some ComponentBase.zeroed]⟩ (by decide) rfl rfl rfl rfl rfl

/-- C14 at a 1920 x 1080 screen and the outputs `gbuffer` (two `TEXTURE_2D`): the
divisor is 3, the bands are 0..360 and 360..720. -/
theorem DebugDraw_bands_within_screen_witness :
    (Scenario.gbuffer.count .TEXTURE_2D = 2 ∧ 2 < UINT32_RANGE ∧ 1080 < UINT32_RANGE) ∧
    max 3 2 ≠ 0 ∧ (DebugDraw 1 Scenario.gbuffer ⟨1920, 1080⟩).length = 2 ∧
    DebugDraw 1 Scenario.gbuffer ⟨1920, 1080⟩ =
      [⟨0, 0, 0, 1920, 1080, 0, 0, 640, 360⟩, ⟨1, 0, 0, 1920, 1080, 0, 360, 640, 720⟩] :=
  have h := (DebugDraw_bands_within_screen 1 Scenario.gbuffer ⟨1920, 1080⟩ 2 (by decide)
    (by decide) (by decide)).2 (by decide) (by decide)
  ⟨⟨by decide, by decide, by decide⟩, h.1, h.2.1, by decide⟩

end Poly
